import Mathlib

/-!
Verification of the OSP reference server core against its specification.

The Lean definitions below are shallow embeddings of the Python sources:
  - osp_server/logic/degradation.py  (degradation FSM with hysteresis)
  - osp_server/logic/delivery.py     (delivery contracts, freshness, proof log)
  - osp_server/logic/registry.py     (registry with revocation and log)
  - osp_core/crypto.py               (JCS canonicalization)
  - osp_server/logic/routing.py      (4-stage routing pipeline)
  - osp_server/logic/safety.py       (safety pipeline, as consumed by routing)

Machine floats in the sources are modelled as exact rationals; external
library functions (math.log, hashlib md5/sha256, the TF-IDF classifier,
the regex engine, the sentence-transformer embedder) are abstracted as
explicit function parameters, since their outputs are data the logic
merely transports.  Wall-clock readings are explicit rational parameters.

Rational arithmetic is resealed to definitional transparency so that
concrete routing pipelines evaluate by kernel reduction (decide / rfl).
-/

set_option allowUnsafeReducibility true

attribute [local semireducible] Rat.add Rat.mul Rat.div Rat.sub Rat.neg Rat.blt Rat.inv

namespace OSP

/-! ## Degradation FSM (osp_server/logic/degradation.py) -/

inductive DegradationLevel
  | D0_NORMAL
  | D1_REDUCED_INTELLIGENCE
  | D2_MINIMAL
  | D3_CRITICAL
  deriving DecidableEq

/-- Numeric value of a degradation level, as in the Python Enum. -/
def DegradationLevel.value : DegradationLevel → Nat
  | .D0_NORMAL => 0
  | .D1_REDUCED_INTELLIGENCE => 1
  | .D2_MINIMAL => 2
  | .D3_CRITICAL => 3

/-- State carried across iterations of the monitor loop: the controller's
current level plus the two local hysteresis counters. -/
structure MonitorState where
  current_level : DegradationLevel
  high_load_ticks : Nat
  normal_load_ticks : Nat
  deriving DecidableEq

/-- Target level computed from a (cpu, ram) sample, per the threshold
cascade in the monitor loop. -/
def targetLevel (cpu ram : ℚ) : DegradationLevel :=
  if cpu > 95 ∨ ram > 95 then .D3_CRITICAL
  else if cpu > 80 ∨ ram > 85 then .D2_MINIMAL
  else if cpu > 50 ∨ ram > 60 then .D1_REDUCED_INTELLIGENCE
  else .D0_NORMAL

def ESCALATION_THRESHOLD : Nat := 2
def RECOVERY_THRESHOLD : Nat := 4

/-- One iteration of the hysteresis logic of the monitor loop, fed one
(cpu, ram) sample. -/
def monitorStep (s : MonitorState) (cpu ram : ℚ) : MonitorState :=
  if (targetLevel cpu ram).value > s.current_level.value then
    if s.high_load_ticks + 1 ≥ ESCALATION_THRESHOLD then
      { current_level := targetLevel cpu ram, high_load_ticks := 0, normal_load_ticks := 0 }
    else
      { current_level := s.current_level, high_load_ticks := s.high_load_ticks + 1,
        normal_load_ticks := 0 }
  else if (targetLevel cpu ram).value < s.current_level.value then
    if s.normal_load_ticks + 1 ≥ RECOVERY_THRESHOLD then
      { current_level := targetLevel cpu ram, high_load_ticks := 0, normal_load_ticks := 0 }
    else
      { current_level := s.current_level, high_load_ticks := 0,
        normal_load_ticks := s.normal_load_ticks + 1 }
  else
    { current_level := s.current_level, high_load_ticks := 0, normal_load_ticks := 0 }

/-- Request admission: shed exactly at D3. -/
def checkRequestAllowed (level : DegradationLevel) : Bool :=
  if level = .D3_CRITICAL then false else true

/-! ## Delivery contract freshness (osp_server/logic/delivery.py) -/

/-- Freshness of a contract, as computed by
DeliveryContractEnforcer._compute_freshness, on well-formed timestamps.
Timestamps are rationals (seconds); the Python code stores ISO strings and
parses them back, which is the identity on well-formed contracts. -/
def computeFreshness (now issued_at expires_at : ℚ) : String :=
  if expires_at ≤ now then "expired"
  else
    let total_ttl := expires_at - issued_at
    let elapsed := now - issued_at
    if total_ttl ≤ 0 then "expired"
    else if elapsed / total_ttl < 4/5 then "fresh" else "stale"

/-! ## Delivery contract enforcer (osp_server/logic/delivery.py)

The proof-log hash function sha256(str(entry)).hexdigest() and the uuid4
generator are external; they enter the model as explicit parameters
hashEntry and uuid.  Per-call wall-clock readings are rational
parameters. -/

/-- A context value attached to a proof-log entry. -/
inductive CtxV
  | s (v : String)
  | i (v : Int)
  | q (v : ℚ)
  deriving DecidableEq

abbrev Ctx := List (String × CtxV)

structure ProofEntry where
  event_type : String
  idempotency_key : String
  timestamp : ℚ
  sequence : Nat
  context : Ctx
  prev_hash : String
  deriving DecidableEq

structure Contract (α : Type) where
  skill_ref : String
  ttl_seconds : ℚ
  freshness : String
  issued_at : ℚ
  expires_at : ℚ
  max_retries : Nat
  idempotency_key : String
  retries_used : Nat
  execution_result : Option α
  execution_status : String
  deriving DecidableEq

/-- Enforcer state: the ordered contract store and the proof log. -/
structure DeliveryState (α : Type) where
  contracts : List (String × Contract α)
  proof_log : List ProofEntry
  deriving DecidableEq

def MAX_CONTRACTS : Nat := 1000
def MAX_PROOF_LOG : Nat := 5000

/-- Genesis prev_hash: 64 zero characters. -/
def genesisHash : String := String.mk (List.replicate 64 '0')

/-- Ordered-dict lookup. -/
def odGet (m : List (String × β)) (k : String) : Option β :=
  match m with
  | [] => none
  | (a, v) :: t => if a = k then some v else odGet t k

/-- Ordered-dict store: an existing key keeps its position, a new key is
appended at the end. -/
def odSet (m : List (String × β)) (k : String) (v : β) : List (String × β) :=
  if (odGet m k).isSome then
    m.map (fun p => if p.1 = k then (k, v) else p)
  else
    m ++ [(k, v)]


/-- Entry allocated by _append_proof before eviction. -/
def mkProofEntry (hashEntry : ProofEntry → String) (now : ℚ)
    (event_type key : String) (ctx : Ctx) (log : List ProofEntry) : ProofEntry :=
  { event_type := event_type, idempotency_key := key, timestamp := now,
    sequence := log.length, context := ctx,
    prev_hash := match log.getLast? with
      | some prev => hashEntry prev
      | none => genesisHash }

/-- DeliveryContractEnforcer._append_proof: allocate an entry whose
sequence is the current log length and whose prev_hash chains to the last
entry (genesis for an empty log), append it, then evict oldest-first down
to MAX_PROOF_LOG entries. -/
def appendProof (hashEntry : ProofEntry → String) (now : ℚ)
    (event_type key : String) (ctx : Ctx) (log : List ProofEntry) : List ProofEntry :=
  let log2 := log ++ [mkProofEntry hashEntry now event_type key ctx log]
  if log2.length > MAX_PROOF_LOG then log2.drop (log2.length - MAX_PROOF_LOG) else log2

/-- DeliveryContractEnforcer.issue_contract.  The uuid parameter stands
for str(uuid.uuid4()), used only when no truthy key is supplied. -/
def issueContract (hashEntry : ProofEntry → String) (now : ℚ) (uuid : String)
    (st : DeliveryState α) (skill_ref : String) (ttl_seconds : ℚ)
    (max_retries : Nat) (idempotency_key : Option String) :
    Contract α × DeliveryState α :=
  let key := match idempotency_key with
    | some k => if k = "" then uuid else k
    | none => uuid
  let issueNew : Contract α × DeliveryState α :=
    let contract : Contract α :=
      { skill_ref := skill_ref, ttl_seconds := ttl_seconds, freshness := "fresh",
        issued_at := now, expires_at := now + ttl_seconds,
        max_retries := max_retries, idempotency_key := key, retries_used := 0,
        execution_result := none, execution_status := "pending" }
    let base := if st.contracts.length ≥ MAX_CONTRACTS then st.contracts.drop 1 else st.contracts
    let contracts := odSet base key contract
    let log := appendProof hashEntry now "CONTRACT_ISSUED" key
      [("skill_ref", CtxV.s skill_ref), ("ttl_seconds", CtxV.q ttl_seconds)] st.proof_log
    (contract, { contracts := contracts, proof_log := log })
  match odGet st.contracts key with
  | some existing =>
      let f := computeFreshness now existing.issued_at existing.expires_at
      if f ≠ "expired" then
        let upd := { existing with freshness := f }
        (upd, { st with contracts := odSet st.contracts key upd })
      else issueNew
  | none => issueNew

/-- The shapes of the dicts returned by execute_with_contract. -/
inductive ExecOutcome (α : Type)
  | rejectedDegradation (error status : String)
  | idempotent (result : Option α) (contract : Contract α)
  | expired (error : String) (contract : Contract α)
  | success (result : α) (contract : Contract α)
  | failed (error : String) (contract : Contract α)
  deriving DecidableEq

/-- The retry loop of execute_with_contract.  fn is the skill execute_fn,
indexed by attempt (an effectful Python callable may differ between
attempts); lat gives the measured latency of an attempt. -/
def runAttempts (hashEntry : ProofEntry → String) (now : ℚ) (lat : Nat → ℚ)
    (fn : Nat → γ → Except String α) (args : γ) (skill_ref key : String)
    (contract : Contract α) (st : DeliveryState α) :
    (attempt remaining : Nat) → Option String → ExecOutcome α × DeliveryState α
  | _, 0, lastErr =>
      let contract2 := { contract with execution_status := "failed" }
      let st2 : DeliveryState α :=
        { contracts := odSet st.contracts key contract2,
          proof_log := appendProof hashEntry now "EXECUTION_FAILED" key
            [("skill_ref", CtxV.s skill_ref),
             ("retries_exhausted", CtxV.i (contract.max_retries + 1)),
             ("last_error", CtxV.s (lastErr.getD "None"))] st.proof_log }
      (ExecOutcome.failed
        ("Execution failed after " ++ toString (contract.max_retries + 1)
          ++ " attempts: " ++ lastErr.getD "None") contract2, st2)
  | attempt, remaining + 1, _ =>
      match fn attempt args with
      | Except.ok r =>
          let contract2 : Contract α :=
            { contract with
                execution_result := some r
                execution_status := "completed"
                freshness := computeFreshness now contract.issued_at contract.expires_at }
          let st2 : DeliveryState α :=
            { contracts := odSet st.contracts key contract2,
              proof_log := appendProof hashEntry now "EXECUTION_SUCCESS" key
                [("skill_ref", CtxV.s skill_ref), ("attempt", CtxV.i (attempt + 1)),
                 ("latency_ms", CtxV.q (lat attempt))] st.proof_log }
          (ExecOutcome.success r contract2, st2)
      | Except.error e =>
          let contract2 := { contract with retries_used := attempt + 1 }
          let st2 : DeliveryState α :=
            { contracts := odSet st.contracts key contract2,
              proof_log := appendProof hashEntry now "EXECUTION_RETRY" key
                [("skill_ref", CtxV.s skill_ref), ("attempt", CtxV.i (attempt + 1)),
                 ("error", CtxV.s e)] st.proof_log }
          runAttempts hashEntry now lat fn args skill_ref key contract2 st2
            (attempt + 1) remaining (some e)

/-- DeliveryContractEnforcer.execute_with_contract.  degradation_ok is
the result of degradation_controller.check_request_allowed() when a
controller is supplied. -/
def executeWithContract (hashEntry : ProofEntry → String) (now : ℚ) (uuid : String)
    (lat : Nat → ℚ) (fn : Nat → γ → Except String α) (args : γ)
    (st : DeliveryState α) (skill_ref : String) (ttl_seconds : ℚ)
    (idempotency_key : Option String) (degradation_ok : Option Bool) :
    ExecOutcome α × DeliveryState α :=
  if degradation_ok = some false then
    let key := match idempotency_key with
      | some k => if k = "" then "rejected" else k
      | none => "rejected"
    (ExecOutcome.rejectedDegradation
        "Service unavailable: system in D3 critical degradation" "rejected",
      { st with
          proof_log := appendProof hashEntry now "REJECTED_DEGRADATION" key
            [("skill_ref", CtxV.s skill_ref),
             ("reason", CtxV.s "D3_CRITICAL_LOAD_SHEDDING")] st.proof_log })
  else
    let issued := issueContract hashEntry now uuid st skill_ref ttl_seconds 3 idempotency_key
    let contract := issued.1
    let st1 := issued.2
    let key := contract.idempotency_key
    if contract.execution_status = "completed" then
      (ExecOutcome.idempotent contract.execution_result contract,
        { st1 with
            proof_log := appendProof hashEntry now "IDEMPOTENT_RETURN" key
              [("reason", CtxV.s "already_executed")] st1.proof_log })
    else
      let f := computeFreshness now contract.issued_at contract.expires_at
      let contract2 := { contract with freshness := f }
      let st2 : DeliveryState α :=
        { st1 with contracts := odSet st1.contracts key contract2 }
      if f = "expired" then
        (ExecOutcome.expired "Contract expired before execution" contract2,
          { st2 with
              proof_log := appendProof hashEntry now "CONTRACT_EXPIRED" key
                [("skill_ref", CtxV.s skill_ref)] st2.proof_log })
      else
        runAttempts hashEntry now lat fn args skill_ref key contract2 st2
          0 (contract.max_retries + 1) none

/-! ## Registry (osp_server/logic/registry.py)

The JCS signature check on CA-backed entries calls into the crypto
library; it enters the model as the parameter cryptoVerify.  The
transparency-log hash is the parameter hashL, and OSP_ADMIN_KEY is the
parameter admin. -/

/-- The trust_anchor sub-dict of a registry entry; absent string keys are
the empty string, as produced by dict.get with default "". -/
structure TrustAnchor where
  atype : String
  uri : String
  proof : String
  public_key : Option String
  deriving DecidableEq

/-- A registry entry as submitted to register; absent string fields are
"" and an absent or empty trust_anchor dict is none. -/
structure RegEntryIn where
  entry_type : String
  skill_ref : String
  content_hash : String
  signature : String
  alg : String
  signed_by : String
  trust_anchor : Option TrustAnchor
  deriving DecidableEq

/-- A stored registry entry: the submitted fields plus the bookkeeping
keys added by register and revoke. -/
structure StoredEntry where
  base : RegEntryIn
  registered_at : ℚ
  timestamp : Int
  status : String
  revoked_at : Option ℚ
  revoked_by : Option String
  deriving DecidableEq

/-- A transparency-log entry. -/
structure RegLogEntry where
  event_type : String
  skill_ref : String
  timestamp : ℚ
  sequence : Nat
  context : Ctx
  prev_hash : String
  deriving DecidableEq

structure RegistryState where
  entries : List (String × StoredEntry)
  log : List RegLogEntry
  revoked : List String
  deriving DecidableEq

def MAX_ENTRIES : Nat := 10000
def MAX_LOG : Nat := 50000

/-- RegistryService._append_log, structurally identical to the delivery
proof log but bounded at MAX_LOG. -/
def regAppendLog (hashL : RegLogEntry → String) (now : ℚ)
    (event_type skill_ref : String) (ctx : Ctx) (log : List RegLogEntry) : List RegLogEntry :=
  let entry : RegLogEntry :=
    { event_type := event_type, skill_ref := skill_ref, timestamp := now,
      sequence := log.length, context := ctx,
      prev_hash := match log.getLast? with
        | some prev => hashL prev
        | none => genesisHash }
  let log2 := log ++ [entry]
  if log2.length > MAX_LOG then log2.drop (log2.length - MAX_LOG) else log2

/-- RegistryService.verify_trust_chain: (valid, reason). -/
def verifyTrustChain (e : RegEntryIn) : Bool × String :=
  match e.trust_anchor with
  | none => (false, "missing_trust_anchor")
  | some ta =>
      if ta.atype = "self_signed" then (true, "")
      else if ta.atype = "root_ca" then
        if ta.uri = "" then (false, "root_ca requires URI") else (true, "")
      else if ta.atype = "intermediate_ca" then
        if ta.uri = "" then (false, "intermediate_ca requires URI")
        else if ta.proof = "" then (false, "intermediate_ca requires proof")
        else (true, "")
      else if ta.atype = "did" then
        if ta.uri = "" ∨ ¬ ta.uri.startsWith "did:" then
          (false, "DID must start with 'did:'")
        else (true, "")
      else (false, "Unknown trust anchor type: " ++ ta.atype)

/-- RegistryService._verify_signature: self-signed entries are accepted
without a key; CA-backed entries need the anchor's public key and a
passing cryptographic verification (abstracted as cryptoVerify). -/
def verifySignature (cryptoVerify : RegEntryIn → Bool) (e : RegEntryIn) : Bool :=
  if e.signature = "" then false
  else match e.trust_anchor with
    | some ta =>
        if ta.atype = "self_signed" then true
        else match ta.public_key with
          | some _ => cryptoVerify e
          | none => false
    | none => false

inductive RegResult
  | error (msg : String)
  | registered (skill_ref entry_type : String)
  | revokedOk (skill_ref : String)
  deriving DecidableEq

/-- RegistryService.register. -/
def register (cryptoVerify : RegEntryIn → Bool) (hashL : RegLogEntry → String)
    (now : ℚ) (ts : Int) (st : RegistryState) (e : RegEntryIn) :
    RegResult × RegistryState :=
  if e.entry_type ∉ (["REGISTER", "DELEGATE", "KEY_ROTATE"] : List String) then
    (RegResult.error ("Invalid entry_type for registration: " ++ e.entry_type), st)
  else if e.skill_ref = "" then
    (RegResult.error "Missing skill_ref", st)
  else if e.content_hash = "" ∨ e.content_hash.length ≠ 64 then
    (RegResult.error "Invalid content_hash: must be 64-char hex (SHA-256)", st)
  else if e.signature = "" then
    (RegResult.error "Missing signature", st)
  else if ¬ (verifyTrustChain e).1 then
    (RegResult.error ("Trust chain verification failed: " ++ (verifyTrustChain e).2), st)
  else if ¬ verifySignature cryptoVerify e then
    (RegResult.error "Signature verification failed: rejected",
      { st with
          log := regAppendLog hashL now "REGISTER_REJECTED" e.skill_ref
            [("reason", CtxV.s "invalid_signature"), ("alg", CtxV.s e.alg),
             ("signed_by", CtxV.s e.signed_by)] st.log })
  else if e.skill_ref ∈ st.revoked then
    (RegResult.error ("Skill '" ++ e.skill_ref ++ "' has been revoked"), st)
  else
    let stored : StoredEntry :=
      { base := e, registered_at := now, timestamp := ts, status := "active",
        revoked_at := none, revoked_by := none }
    let base := if st.entries.length ≥ MAX_ENTRIES then st.entries.drop 1 else st.entries
    (RegResult.registered e.skill_ref e.entry_type,
      { st with
          entries := odSet base e.skill_ref stored,
          log := regAppendLog hashL now "REGISTERED" e.skill_ref
            [("entry_type", CtxV.s e.entry_type), ("alg", CtxV.s e.alg),
             ("signed_by", CtxV.s e.signed_by)] st.log })

/-- RegistryService.revoke.  admin is the OSP_ADMIN_KEY environment
value, when set. -/
def revoke (hashL : RegLogEntry → String) (admin : Option String) (now : ℚ)
    (st : RegistryState) (skill_ref signed_by : String) :
    RegResult × RegistryState :=
  if skill_ref = "" then (RegResult.error "Missing skill_ref", st)
  else match odGet st.entries skill_ref with
    | none => (RegResult.error ("Skill '" ++ skill_ref ++ "' not found in registry"), st)
    | some existing =>
        if existing.base.signed_by ≠ signed_by
            ∧ (admin.isSome && (signed_by == "__admin__")) = false then
          (RegResult.error ("Unauthorized: only '" ++ existing.base.signed_by
            ++ "' or admin can revoke this skill"), st)
        else
          let upd := { existing with
            status := "revoked", revoked_at := some now, revoked_by := some signed_by }
          (RegResult.revokedOk skill_ref,
            { entries := odSet st.entries skill_ref upd,
              log := regAppendLog hashL now "REVOKED" skill_ref
                [("revoked_by", CtxV.s signed_by)] st.log,
              revoked := skill_ref :: st.revoked })

/-- One registry operation, for reasoning about arbitrary interleavings. -/
inductive RegOp
  | doRegister (e : RegEntryIn) (now : ℚ) (ts : Int)
  | doRevoke (skill_ref signed_by : String) (now : ℚ)

def applyRegOp (cryptoVerify : RegEntryIn → Bool) (hashL : RegLogEntry → String)
    (admin : Option String) (st : RegistryState) : RegOp → RegistryState
  | RegOp.doRegister e now ts => (register cryptoVerify hashL now ts st e).2
  | RegOp.doRevoke skill_ref signed_by now => (revoke hashL admin now st skill_ref signed_by).2

def applyRegOps (cryptoVerify : RegEntryIn → Bool) (hashL : RegLogEntry → String)
    (admin : Option String) (ops : List RegOp) (st : RegistryState) : RegistryState :=
  ops.foldl (applyRegOp cryptoVerify hashL admin) st

/-! ## JCS canonicalizer (osp_core/crypto.py)

JCS._encode over Python values.  Python floats are finite IEEE doubles,
embedded here by their exact rational value; their textual rendering by
json.dumps (float.__repr__) is the parameter floatRepr.  Byte sequences
are represented as strings: all emitted bytes are the UTF-8 encoding of
the returned string, so byte equality coincides with string equality. -/

inductive PyVal
  | pNull
  | pBool (b : Bool)
  | pInt (n : Int)
  | pFloat (x : ℚ)
  | pStr (s : String)
  | pList (l : List PyVal)
  | pDict (d : List (String × PyVal))

def hexDigit (n : Nat) : Char :=
  if n < 10 then Char.ofNat (48 + n) else Char.ofNat (87 + n)

/-- One character under json.dumps string escaping with
ensure_ascii=False: quote, backslash and control characters are escaped,
everything else is kept as is. -/
def jsonEscapeChar (c : Char) : String :=
  if c = Char.ofNat 34 then "\\\"" 
  else if c = Char.ofNat 92 then "\\\\"
  else if c = Char.ofNat 10 then "\\n"
  else if c = Char.ofNat 13 then "\\r"
  else if c = Char.ofNat 9 then "\\t"
  else if c.toNat = 8 then "\\b"
  else if c.toNat = 12 then "\\f"
  else if c.toNat < 32 then
    "\\u00" ++ String.mk [hexDigit (c.toNat / 16), hexDigit (c.toNat % 16)]
  else String.mk [c]

/-- json.dumps of a string with ensure_ascii=False. -/
def jsonStr (s : String) : String :=
  "\"" ++ String.join (s.toList.map jsonEscapeChar) ++ "\""

/-- Insert a key-value pair into a key-sorted list (Python sorted over
dict keys; the comparison looks only at the key). -/
def insertPair {α : Type} (p : String × α) : List (String × α) → List (String × α)
  | [] => [p]
  | q :: t => if p.1 ≤ q.1 then p :: q :: t else q :: insertPair p t

def sortPairs {α : Type} : List (String × α) → List (String × α)
  | [] => []
  | p :: t => insertPair p (sortPairs t)

/-- JCS._encode.  Object keys are sorted by Unicode code-point order;
numbers follow the Python branches: ints via str(), floats via
json.dumps (floatRepr).  Sorting commutes with per-pair encoding since
the comparison reads only the key, so the pairs are encoded first and
then key-sorted. -/
def encodeP (floatRepr : ℚ → String) : PyVal → String
  | .pNull => "null"
  | .pBool b => if b then "true" else "false"
  | .pInt n => toString n
  | .pFloat x => floatRepr x
  | .pStr s => jsonStr s
  | .pList l => "[" ++ String.intercalate ","
      (l.attach.map (fun x => encodeP floatRepr x.1)) ++ "]"
  | .pDict d => "\x7b"
      ++ String.intercalate ","
        ((sortPairs (d.attach.map (fun p => (p.1.1, encodeP floatRepr p.1.2)))).map
          (fun p => jsonStr p.1 ++ ":" ++ p.2))
      ++ "\x7d"
  decreasing_by
  · have := List.sizeOf_lt_of_mem x.2
    simp only [PyVal.pList.sizeOf_spec]
    omega
  · have h1 := List.sizeOf_lt_of_mem p.2
    have h2 : sizeOf (↑p : String × PyVal).2 ≤ sizeOf (↑p : String × PyVal) := by
      obtain ⟨⟨a, b⟩, hp⟩ := p
      simp
    simp only [PyVal.pDict.sizeOf_spec]
    omega

/-- A JSON value: the semantics a Python value denotes on the wire.
Numbers carry only their numeric value; objects are keyed maps (stored
key-sorted so that equality is key-order-independent). -/
inductive JVal
  | jNull
  | jBool (b : Bool)
  | jNum (q : ℚ)
  | jStr (s : String)
  | jArr (l : List JVal)
  | jObj (d : List (String × JVal))

/-- Interpretation of a Python value as the JSON value it denotes: ints
and floats collapse to their common numeric value, dict key order is
normalized away by sorting. -/
def toJson : PyVal → JVal
  | .pNull => JVal.jNull
  | .pBool b => JVal.jBool b
  | .pInt n => JVal.jNum n
  | .pFloat x => JVal.jNum x
  | .pStr s => JVal.jStr s
  | .pList l => JVal.jArr (l.attach.map (fun x => toJson x.1))
  | .pDict d => JVal.jObj (sortPairs (d.attach.map (fun p => (p.1.1, toJson p.1.2))))
  decreasing_by
  · have := List.sizeOf_lt_of_mem x.2
    simp only [PyVal.pList.sizeOf_spec]
    omega
  · have h1 := List.sizeOf_lt_of_mem p.2
    have h2 : sizeOf (↑p : String × PyVal).2 ≤ sizeOf (↑p : String × PyVal) := by
      obtain ⟨⟨a, b⟩, hp⟩ := p
      simp
    simp only [PyVal.pDict.sizeOf_spec]
    omega

/-! ## Safety pipeline (osp_server/logic/safety.py)

The two injection regexes, the TF-IDF classifier and math.log are
external components; they enter as the parameters sqlMatch, cmdMatch,
classify (whose error case models a raised exception) and logQ. -/

structure ClassifyResult where
  category : String
  risk_score : ℚ
  risk_level : String
  reason_code : String
  blocked : Bool
  deriving DecidableEq

structure SafetyParams where
  sqlMatch : String → Bool
  cmdMatch : String → Bool
  classify : String → Except String (Option ClassifyResult)
  logQ : ℚ → ℚ

/-- The two bounded history deques (maxlen 100). -/
structure SafetyState where
  lexical_history : List ℚ
  semantic_history : List ℚ
  deriving DecidableEq

/-- Append to a deque with maxlen 100. -/
def dqAppend (l : List ℚ) (x : ℚ) : List ℚ :=
  let l2 := l ++ [x]
  if l2.length > 100 then l2.drop (l2.length - 100) else l2

/-- The last 10 elements of a history. -/
def last10 (l : List ℚ) : List ℚ := l.drop (l.length - 10)

/-- KL divergence with epsilon smoothing at 1e-10. -/
def klDivergence (logQ : ℚ → ℚ) (p q : List ℚ) : ℚ :=
  (p.zip q).foldl
    (fun acc pq =>
      let pi := max pq.1 (1 / 10000000000)
      let qi := max pq.2 (1 / 10000000000)
      acc + pi * logQ (pi / qi)) 0

inductive StageV
  | n (k : Int)
  | s (tag : String)
  deriving DecidableEq

structure TraceEvent where
  code : String
  stage : StageV
  ctx : Ctx
  deriving DecidableEq

/-- A refusal produced by check_safety (the "safe": false dicts). -/
structure SafetyRefusal where
  reason_code : String
  message : String
  safe_alternative : Option String
  trace : List TraceEvent
  deriving DecidableEq

def messageMap (category : String) : String :=
  if category = "JAILBREAK" then "I maintain consistent safety guidelines."
  else if category = "PRIVACY" then "I can't share internal details."
  else if category = "ILLEGAL" then "I cannot allow this request."
  else if category = "VIOLENCE" then "I cannot allow this request."
  else if category = "MANIPULATION" then "Request blocked due to security concerns."
  else if category = "INTERNAL_STATE" then "I can't share my internal instructions."
  else "Request blocked."

/-- SafetyService.check_safety.  A classify error is the fail-closed
path; a None classification is the safe pass (its local trace list is
discarded, as in the source, which returns None). -/
def checkSafety (sp : SafetyParams) (query : String) (st : SafetyState) :
    Option SafetyRefusal × SafetyState :=
  if sp.sqlMatch query then
    (some { reason_code := "PREFILTER_SQL_INJECTION",
            message := "Potential SQL injection detected",
            safe_alternative := some "I cannot help with database queries. Please rephrase your request.",
            trace := [⟨"PREFILTER_MATCH", StageV.s "lexical_injection_filter",
                        [("matched_pattern", CtxV.s "sql_keywords")]⟩,
                      ⟨"BLOCK_ACTION", StageV.s "prefilter_stage", []⟩] }, st)
  else if sp.cmdMatch query then
    (some { reason_code := "PREFILTER_COMMAND_INJECTION",
            message := "Potential command injection detected",
            safe_alternative := some "I cannot execute system commands. Please describe what you'd like to accomplish.",
            trace := [⟨"PREFILTER_MATCH", StageV.s "forbidden_pattern_filter",
                        [("matched_pattern", CtxV.s "shell_metacharacters")]⟩,
                      ⟨"BLOCK_ACTION", StageV.s "prefilter_stage", []⟩] }, st)
  else
    let passEv : TraceEvent := ⟨"PREFILTER_PASS", StageV.s "lexical_injection_filter", []⟩
    match sp.classify query with
    | Except.error e =>
        (some { reason_code := "SAFETY_CLASSIFIER_UNAVAILABLE",
                message := "Safety classification is temporarily unavailable.",
                safe_alternative := some "Safety classification is temporarily unavailable. Please try again in a moment.",
                trace := [passEv,
                  ⟨"SEMANTIC_CLASSIFIER_ERROR", StageV.s "semantic_classifier",
                    [("error_type", CtxV.s e)]⟩,
                  ⟨"FAIL_CLOSED_TRIGGERED", StageV.s "safety_decision", []⟩,
                  ⟨"SAFE_FALLBACK_GENERATED", StageV.s "fallback_handler",
                    [("fallback_type", CtxV.s "classifier_unavailable")]⟩] }, st)
    | Except.ok none => (none, st)
    | Except.ok (some r) =>
        if r.blocked then
          (some { reason_code := r.reason_code,
                  message := messageMap r.category,
                  safe_alternative := none,
                  trace := [passEv,
                    ⟨"SEMANTIC_ANALYSIS_START", StageV.s "semantic_classifier", []⟩,
                    ⟨"SEMANTIC_RISK_DETECTED", StageV.s "semantic_classifier",
                      [("risk_score", CtxV.q r.risk_score),
                       ("risk_category", CtxV.s r.category)]⟩,
                    ⟨"BLOCK_ACTION", StageV.s "semantic_decision", []⟩,
                    ⟨"SAFE_FALLBACK_GENERATED", StageV.s "fallback_handler", []⟩] }, st)
        else
          let lexical_score : ℚ := if sp.sqlMatch query || sp.cmdMatch query then 1 else 0
          let st2 : SafetyState :=
            { lexical_history := dqAppend st.lexical_history lexical_score,
              semantic_history := dqAppend st.semantic_history r.risk_score }
          if st2.lexical_history.length ≥ 10 then
            let lastLex := last10 st2.lexical_history
            let lastSem := last10 st2.semantic_history
            let lex_sum := lastLex.sum + 1 / 10000000000
            let sem_sum := lastSem.sum + 1 / 10000000000
            let kl := klDivergence sp.logQ (lastLex.map (· / lex_sum)) (lastSem.map (· / sem_sum))
            if kl > 1/2 then
              if r.risk_level = "HIGH" ∨ r.risk_level = "CRITICAL" then
                (some { reason_code := "ANOMALY_DETECTED_HIGH_RISK",
                        message := "Request blocked.",
                        safe_alternative := none,
                        trace := [passEv,
                          ⟨"SEMANTIC_ANALYSIS_START", StageV.s "semantic_classifier", []⟩,
                          ⟨"SEMANTIC_RISK_DETECTED", StageV.s "semantic_classifier",
                            [("risk_score", CtxV.q r.risk_score),
                             ("risk_category", CtxV.s r.category)]⟩,
                          ⟨"SEMANTIC_RISK_NOTED", StageV.s "semantic_classifier",
                            [("risk_score", CtxV.q r.risk_score)]⟩,
                          ⟨"ANOMALY_DETECTED", StageV.s "anomaly_detection",
                            [("anomaly_type", CtxV.s "distribution_shift"),
                             ("anomaly_confidence", CtxV.q (min (kl / 2) (99/100)))]⟩,
                          ⟨"SEMANTIC_ANALYSIS_DISCARDED", StageV.s "safety_decision",
                            [("reason", CtxV.s "anomaly_detected")]⟩,
                          ⟨"CONSERVATIVE_BLOCK_APPLIED", StageV.s "safety_decision", []⟩,
                          ⟨"SECURITY_EVENT_LOGGED", StageV.s "logging",
                            [("severity", CtxV.s "CRITICAL")]⟩] }, st2)
              else (none, st2)
            else (none, st2)
          else (none, st2)

/-! ## Routing pipeline (osp_server/logic/routing.py)

md5 and the sentence-transformer embedder are external; they enter as
the parameters md5Hex and embedder.  The stage-1 latency reading is the
parameter lat1 (the only measured time that reaches a trace event). -/

def EPSILON : ℚ := 1 / 1000000

def fp64Equal (a b : ℚ) : Bool := |a - b| < EPSILON

/-- Python str.strip over the character list. -/
def pyStrip (s : String) : String :=
  String.mk (((s.toList.dropWhile Char.isWhitespace).reverse.dropWhile
    Char.isWhitespace).reverse)

/-- Word characters of the tokenizer regex, for the ASCII range the
claims exercise. -/
def isWordChar (c : Char) : Bool := c.isAlphanum || c = Char.ofNat 95

/-- Split into maximal runs of word characters. -/
def tokenizeAux : List Char → List Char → List String
  | [], acc => if acc.isEmpty then [] else [String.mk acc.reverse]
  | c :: rest, acc =>
      if isWordChar c then tokenizeAux rest (c :: acc)
      else if acc.isEmpty then tokenizeAux rest []
      else String.mk acc.reverse :: tokenizeAux rest []

/-- BM25Scorer._tokenize: word-character runs of the lowercased text. -/
def tokenize (s : String) : List String :=
  tokenizeAux (s.toList.map Char.toLower) []

/-- BM25Scorer state: the IDF corpus statistics. -/
structure BM25State where
  doc_count : Nat
  doc_freq : List (String × Nat)
  deriving DecidableEq

/-- BM25Scorer.build_idf. -/
def buildIdf (docs : List String) : BM25State :=
  { doc_count := docs.length,
    doc_freq := docs.foldl
      (fun m doc => (tokenize doc).eraseDups.foldl
        (fun m2 t => odSet m2 t ((odGet m2 t).getD 0 + 1)) m) [] }

/-- BM25Scorer._get_idf. -/
def getIdf (logQ : ℚ → ℚ) (st : BM25State) (term : String) : ℚ :=
  if st.doc_count = 0 then 1
  else
    let df := (odGet st.doc_freq term).getD 0
    if df = 0 then 1
    else logQ (((st.doc_count : ℚ) - (df : ℚ) + 1/2) / ((df : ℚ) + 1/2) + 1)

/-- BM25Scorer.score with k1 = 1.5, b = 0.75 (the constructor
defaults used by RouterService). -/
def bm25Score (logQ : ℚ → ℚ) (st : BM25State) (query document : String) : ℚ :=
  let k1 : ℚ := 3/2
  let b : ℚ := 3/4
  let query_terms := tokenize query
  let doc_terms := tokenize document
  if doc_terms.isEmpty then 0
  else
    let doc_len : ℚ := doc_terms.length
    let avg_doc_len : ℚ := max doc_terms.length 1
    query_terms.foldl
      (fun acc term =>
        let tf : ℚ := (doc_terms.count term : ℚ)
        if tf = 0 then acc
        else acc + getIdf logQ st term
          * (tf * (k1 + 1)) / (tf + k1 * (1 - b + b * (doc_len / avg_doc_len)))) 0

/-- A candidate dict; absent fields are none. -/
structure Candidate where
  skill_id : Option String
  name : Option String
  description : Option String
  activation_keywords : List String
  risk_level : Option String
  safety_clearance : Option String
  skill_ref : Option String
  deriving DecidableEq

/-- Python or over possibly-missing strings: a truthy (non-empty)
left operand wins, otherwise the right operand is returned as is. -/
def pyOr (a b : Option String) : Option String :=
  match a with
  | some s => if s = "" then b else some s
  | none => b

/-- The stage-1 document of a candidate: name, description and
space-joined truthy activation keywords. -/
def docString (c : Candidate) : String :=
  let name := (pyOr c.name (pyOr c.skill_id (some ""))).getD ""
  let description := (pyOr c.description (some "")).getD ""
  let keywords := String.intercalate " " (c.activation_keywords.filter (fun k => k ≠ ""))
  name ++ " " ++ description ++ " " ++ keywords

/-- A candidate copy with the scoring fields attached. -/
structure ScoredCand where
  cand : Candidate
  bm25 : ℚ
  sem : ℚ
  combined : ℚ
  deriving DecidableEq

/-- Stable insertion of x into a descending-sorted list: x goes before
the first strictly smaller key, after equal keys (Python stable sort
with reverse=True). -/
def insertDesc (key : ScoredCand → ℚ) (x : ScoredCand) :
    List ScoredCand → List ScoredCand
  | [] => [x]
  | y :: t => if key x > key y then x :: y :: t else y :: insertDesc key x t

def sortDesc (key : ScoredCand → ℚ) : List ScoredCand → List ScoredCand
  | [] => []
  | x :: t => insertDesc key x (sortDesc key t)

inductive RouteResponse
  | refusal (reason_code message : String) (safe_alternative clarify : Option String)
      (trace : List TraceEvent)
  | decision (skill_ref : Option String) (safety_clearance : String) (approximate : Bool)
      (decision_stability : String) (tie_break_applied : Bool) (trace : List TraceEvent)
  deriving DecidableEq

/-- dict(cached) with trace_events replaced. -/
def setTrace : RouteResponse → List TraceEvent → RouteResponse
  | RouteResponse.refusal rc m sa cl _, t => RouteResponse.refusal rc m sa cl t
  | RouteResponse.decision sr sc a ds tb _, t => RouteResponse.decision sr sc a ds tb t

/-- RouterService._build_response. -/
def buildResponse (c : Candidate) (trace : List TraceEvent)
    (safety_clearance : Option String) (approximate : Bool)
    (decision_stability : String) (tie_break_applied : Bool) : RouteResponse :=
  RouteResponse.decision (pyOr c.skill_ref c.skill_id)
    (match safety_clearance with
      | some s => s
      | none => c.safety_clearance.getD "allow")
    approximate decision_stability tie_break_applied trace

structure RouterParams where
  sqlMatch : String → Bool
  cmdMatch : String → Bool
  classify : String → Except String (Option ClassifyResult)
  logQ : ℚ → ℚ
  md5Hex : String → String
  embedder : Option (List String → Option (List (List ℚ)))

def CACHE_SIZE : Nat := 256

structure RouterState where
  safety : SafetyState
  bm25 : BM25State
  cache : List (String × RouteResponse)
  deriving DecidableEq

/-- RouterService._cache_put: replacing a key moves it to the end;
at capacity the oldest entry is evicted. -/
def cachePut (m : List (String × RouteResponse)) (k : String) (v : RouteResponse) :
    List (String × RouteResponse) :=
  if (odGet m k).isSome then m.filter (fun p => p.1 ≠ k) ++ [(k, v)]
  else if m.length ≥ CACHE_SIZE then m.drop 1 ++ [(k, v)]
  else m ++ [(k, v)]

/-- Ascending insertion sort on strings (Python sorted). -/
def insertStr (x : String) : List String → List String
  | [] => [x]
  | y :: t => if x ≤ y then x :: y :: t else y :: insertStr x t

def sortStrings : List String → List String
  | [] => []
  | x :: t => insertStr x (sortStrings t)

/-- RouterService._make_cache_key. -/
def makeCacheKey (md5Hex : String → String) (query : String)
    (candidates : List Candidate) : String :=
  md5Hex (query ++ "|" ++ String.intercalate ","
    (sortStrings (candidates.map (fun c => (pyOr c.skill_id (some "")).getD ""))))

structure RouteRequest where
  query : String
  candidate_skills : List Candidate
  skip_semantic : Bool
  deriving DecidableEq

/-- Python substring test "@override" in query. -/
def hasOverride (q : String) : Bool := decide ("@override".toList.IsInfix q.toList)

/-- Query truncation to 4096 code units. -/
def truncQuery (q : String) : String :=
  if q.length > 4096 then String.mk (q.toList.take 4096) else q

/-- UTF-8 encoding of one code point. -/
def utf8Enc (c : Char) : List Nat :=
  let n := c.toNat
  if n < 128 then [n]
  else if n < 2048 then [192 + n / 64, 128 + n % 64]
  else if n < 65536 then [224 + n / 4096, 128 + (n / 64) % 64, 128 + n % 64]
  else [240 + n / 262144, 128 + (n / 4096) % 64, 128 + (n / 64) % 64, 128 + n % 64]

def utf8Bytes (s : String) : List Nat :=
  s.toList.foldr (fun c acc => utf8Enc c ++ acc) []

def bytesLt : List Nat → List Nat → Bool
  | [], [] => false
  | [], _ :: _ => true
  | _ :: _, [] => false
  | a :: as2, b :: bs2 => if a < b then true else if b < a then false else bytesLt as2 bs2

/-- _utf8_tiebreak: Python min by UTF-8 bytes of skill_id, first minimum
winning (dflt covers the never-reached empty case). -/
def utf8Tiebreak (dflt : ScoredCand) : List ScoredCand → ScoredCand
  | [] => dflt
  | x :: t => t.foldl
      (fun m c =>
        if bytesLt (utf8Bytes ((c.cand.skill_id.getD ""))) (utf8Bytes ((m.cand.skill_id.getD ""))) then c
        else m) x

/-- risk_order.get(risk_level or default "LOW", 0): the dict has only
LOW, MEDIUM, HIGH; any other value (including CRITICAL) falls to the
default 0. -/
def riskValue (c : Candidate) : Nat :=
  (odGet [("LOW", 0), ("MEDIUM", 1), ("HIGH", 2)] (c.risk_level.getD "LOW")).getD 0

def minRiskOf (dfltv : Nat) : List ScoredCand → Nat
  | [] => dfltv
  | x :: t => t.foldl (fun m c => min m (riskValue c.cand)) (riskValue x.cand)

/-- The dot product of two equal-length unit vectors (cosine of
normalized embeddings). -/
def dotQ (a b : List ℚ) : ℚ := (a.zip b).foldl (fun acc p => acc + p.1 * p.2) 0

def scoredInit (logQ : ℚ → ℚ) (bmSt : BM25State) (query : String)
    (cands : List Candidate) : List ScoredCand :=
  cands.map (fun c =>
    { cand := c, bm25 := bm25Score logQ bmSt query (docString c), sem := 0, combined := 0 })

def maxSem : List ScoredCand → ℚ
  | [] => 0
  | x :: t => t.foldl (fun m c => max m c.sem) x.sem

/-- Stage 2: semantic rerank.  Skipping emits STAGE2_SKIPPED; a missing
embedder silently keeps the lexical scores; an embedder failure (or a
result of the wrong shape, which would raise in the source) emits the
timeout and lexical-fallback events. -/
def stage2Run (p : RouterParams) (skip : Bool) (query : String)
    (scored : List ScoredCand) (trace : List TraceEvent) :
    List ScoredCand × List TraceEvent :=
  if skip then (scored, trace ++ [⟨"STAGE2_SKIPPED", StageV.n 2, []⟩])
  else
    match p.embedder with
    | none => (scored, trace)
    | some f =>
        let candidate_docs := scored.map
          (fun c => (c.cand.name.getD "") ++ " " ++ (c.cand.description.getD ""))
        let all_texts := query :: candidate_docs
        match f all_texts with
        | none => (scored, trace ++ [⟨"STAGE2_EMBEDDING_TIMEOUT", StageV.n 2, []⟩,
            ⟨"ROUTING_FALLBACK_LEXICAL", StageV.n 2, []⟩])
        | some embs =>
            if embs.length = all_texts.length then
              let query_embedding := embs.headD []
              let doc_embeddings := embs.tail
              let scored2 := (scored.zip doc_embeddings).map
                (fun pc => { pc.1 with sem := dotQ query_embedding pc.2 })
              let tr2 := trace ++ [⟨"STAGE2_EMBEDDING_GENERATED", StageV.n 2, []⟩,
                ⟨"STAGE2_SEMANTIC_SIMILARITY", StageV.n 2,
                  [("min_count", CtxV.i scored.length), ("max_count", CtxV.i scored.length)]⟩]
              let best := maxSem scored2
              let tr3 :=
                if best < 3/10 then
                  tr2 ++ [⟨"STAGE2_SEMANTIC_SIMILARITY_LOW", StageV.n 2, []⟩]
                else if best ≥ 7/10 then
                  tr2 ++ [⟨"STAGE2_SEMANTIC_THRESHOLD_MET", StageV.n 2, []⟩]
                else tr2 ++ [⟨"STAGE2_CONFIDENCE_MEDIUM", StageV.n 2, []⟩]
              (scored2, tr3)
            else (scored, trace ++ [⟨"STAGE2_EMBEDDING_TIMEOUT", StageV.n 2, []⟩,
                ⟨"ROUTING_FALLBACK_LEXICAL", StageV.n 2, []⟩])

/-- Combined score 0.4·(bm25/(bm25+1)) + 0.6·semantic. -/
def combineScores (scored : List ScoredCand) : List ScoredCand :=
  scored.map (fun c =>
    { c with combined :=
        (2/5) * (if c.bm25 > 0 then c.bm25 / (c.bm25 + 1) else 0) + (3/5) * c.sem })

/-- Candidates whose key is within EPSILON of top. -/
def tiedOn (key : ScoredCand → ℚ) (top : ℚ) (l : List ScoredCand) : List ScoredCand :=
  l.filter (fun c => fp64Equal (key c) top)

/-- The minimum-risk narrowing of a tied set: keep only the candidates
at the minimum risk value when that is a strict subset. -/
def narrowedOf (tied : List ScoredCand) : List ScoredCand :=
  let mr := minRiskOf 0 tied
  let low := tied.filter (fun c => riskValue c.cand = mr)
  if low.length < tied.length then low else tied

def finishResponse (c : ScoredCand) (clearance : String) (tb : Bool) (ds : String)
    (tr : List TraceEvent) : RouteResponse :=
  buildResponse c.cand (tr ++ [⟨"ROUTING_DECISION_FINAL", StageV.n 3, []⟩])
    (some clearance) (decide (c.sem < 3/10 ∧ c.bm25 < 1)) ds tb

/-- Stage 3: conflict resolution over the combined-score-sorted list. -/
def stage3Run (sorted3 : List ScoredCand) (trace : List TraceEvent) : RouteResponse :=
  match sorted3 with
  | [] => RouteResponse.decision none "escalate" false "no_candidates" false trace
  | top :: _ =>
      let safety_clearance := top.cand.safety_clearance.getD "allow"
      let tied_final := tiedOn (fun c => c.combined) top.combined sorted3
      if tied_final.length > 1 then
        let tr1 := trace ++ [⟨"STAGE3_CONFLICT_DETECTED", StageV.n 3, []⟩]
        let narrowed := narrowedOf tied_final
        let tr2 := if narrowed.length < tied_final.length then
            tr1 ++ [⟨"STAGE3_LOWER_RISK_SELECTED", StageV.n 3, []⟩]
          else tr1
        let clearance2 := if narrowed.any (fun c =>
            c.cand.risk_level == some "MEDIUM" || c.cand.risk_level == some "HIGH") then
            "restricted"
          else safety_clearance
        if narrowed.length > 1 then
          finishResponse (utf8Tiebreak top narrowed) clearance2 true
            "tie_break_lexical_order"
            (tr2 ++ [⟨"STAGE3_TIE_BREAK_SKILL_ID", StageV.n 3, []⟩])
        else
          finishResponse (narrowed.headD top) clearance2 false "conflict_resolved" tr2
      else
        let ds := if top.sem > 1/2 then "semantic_supported"
          else if top.sem > 0 then "approximate_match"
          else "deterministic"
        finishResponse top safety_clearance false ds trace

/-- Stages 1-3 with caching of the final decision (the stage-1
zero-score fallback returns early and is not cached, as in the
source). -/
def routeStages (p : RouterParams) (lat1 : ℚ) (st : RouterState) (query : String)
    (candidates : List Candidate) (skip : Bool) (trace : List TraceEvent)
    (ckey : String) : RouteResponse × RouterState :=
  let doc_strings := candidates.map docString
  let bmSt := if doc_strings.length > 1 then buildIdf doc_strings else st.bm25
  let scored1 := sortDesc (fun x => x.bm25) (scoredInit p.logQ bmSt query candidates)
  let tr1 := trace ++ [⟨"STAGE1_LEXICAL_MATCH", StageV.n 1,
    [("latency_ms", CtxV.q lat1), ("backend_version", CtxV.s "osp-ref-server-v1.0.0")]⟩]
  let st2 := { st with bm25 := bmSt }
  match scored1 with
  | [] => (RouteResponse.decision none "escalate" false "no_candidates" false tr1, st2)
  | top0 :: _ =>
      if top0.bm25 = 0 then
        (buildResponse top0.cand
          (tr1 ++ [⟨"STAGE1_NO_MATCHES", StageV.n 1, []⟩,
            ⟨"ROUTING_FALLBACK_DEFAULT", StageV.n 1, []⟩,
            ⟨"ROUTING_DECISION_FINAL", StageV.n 1, []⟩])
          none true "fallback_default" false, st2)
      else
        let tr2 := if (tiedOn (fun c => c.bm25) top0.bm25 scored1).length > 1 then
            tr1 ++ [⟨"STAGE1_IDENTICAL_SCORES", StageV.n 1, []⟩]
          else tr1
        let s2 := stage2Run p skip query scored1 tr2
        let resp := stage3Run (sortDesc (fun x => x.combined) (combineScores s2.1)) s2.2
        (resp, { st2 with cache := cachePut st2.cache ckey resp })

/-- RouterService.route. -/
def route (p : RouterParams) (lat1 : ℚ) (st : RouterState) (req : RouteRequest) :
    RouteResponse × RouterState :=
  let query := truncQuery req.query
  let candidates := req.candidate_skills
  if pyStrip query = "" then
    (RouteResponse.refusal "INVALID_REQUEST_EMPTY_QUERY" "Invalid params: empty query"
      (some "Please provide a query or question.") none
      [⟨"VALIDATION_FAILED", StageV.s "request_validation",
          [("reason", CtxV.s "empty_query")]⟩,
       ⟨"SAFE_FALLBACK_GENERATED", StageV.s "fallback_handler", []⟩], st)
  else
    match candidates, hasOverride query with
    | c :: _, true =>
        (buildResponse c
          [⟨"ROUTING_ESCAPE_HATCH_DETECTED", StageV.n 0, []⟩,
           ⟨"ROUTING_SKILL_ID_PARSED", StageV.n 0, []⟩,
           ⟨"ROUTING_DIRECT_DISPATCH", StageV.n 0, []⟩,
           ⟨"ROUTING_DECISION_FINAL", StageV.n 0, []⟩]
          none false "escape_hatch_direct" false, st)
    | _, _ =>
        if candidates.isEmpty then
          (RouteResponse.decision none "escalate" false "no_candidates" false
            [⟨"ROUTING_POOL_EMPTY", StageV.n 1, []⟩,
             ⟨"ROUTING_ESCALATION_REQUIRED", StageV.n 1, []⟩], st)
        else
          let sres := checkSafety
            { sqlMatch := p.sqlMatch, cmdMatch := p.cmdMatch,
              classify := p.classify, logQ := p.logQ } query st.safety
          let st1 := { st with safety := sres.2 }
          match sres.1 with
          | some ref =>
              (RouteResponse.refusal ref.reason_code ref.message ref.safe_alternative
                none ref.trace, st1)
          | none =>
              let tr := [⟨"SAFETY_CHECK_PASS", StageV.s "SAFETY_CHECK",
                [("latency_ms", CtxV.i 1)]⟩]
              let ckey := makeCacheKey p.md5Hex query candidates
              match odGet st1.cache ckey with
              | some cached => (setTrace cached [⟨"CACHE_HIT", StageV.n 0, []⟩], st1)
              | none => routeStages p lat1 st1 query candidates req.skip_semantic tr ckey

end OSP

/-! ## Theorems for claims C9 and C4 -/

open OSP

lemma monitorStep_high_noesc (s : MonitorState) (c r : ℚ)
    (h : (targetLevel c r).value > s.current_level.value)
    (hlt : s.high_load_ticks + 1 < ESCALATION_THRESHOLD) :
    monitorStep s c r
      = { current_level := s.current_level, high_load_ticks := s.high_load_ticks + 1,
          normal_load_ticks := 0 } := by
  unfold monitorStep
  rw [if_pos h, if_neg (Nat.not_le.mpr hlt)]

lemma monitorStep_high_esc (s : MonitorState) (c r : ℚ)
    (h : (targetLevel c r).value > s.current_level.value)
    (hge : s.high_load_ticks + 1 ≥ ESCALATION_THRESHOLD) :
    monitorStep s c r
      = { current_level := targetLevel c r, high_load_ticks := 0, normal_load_ticks := 0 } := by
  unfold monitorStep
  rw [if_pos h, if_pos hge]

lemma monitorStep_low_norec (s : MonitorState) (c r : ℚ)
    (h : (targetLevel c r).value < s.current_level.value)
    (hlt : s.normal_load_ticks + 1 < RECOVERY_THRESHOLD) :
    monitorStep s c r
      = { current_level := s.current_level, high_load_ticks := 0,
          normal_load_ticks := s.normal_load_ticks + 1 } := by
  unfold monitorStep
  rw [if_neg (by omega), if_pos h, if_neg (Nat.not_le.mpr hlt)]

lemma monitorStep_low_rec (s : MonitorState) (c r : ℚ)
    (h : (targetLevel c r).value < s.current_level.value)
    (hge : s.normal_load_ticks + 1 ≥ RECOVERY_THRESHOLD) :
    monitorStep s c r
      = { current_level := targetLevel c r, high_load_ticks := 0, normal_load_ticks := 0 } := by
  unfold monitorStep
  rw [if_neg (by omega), if_pos h, if_pos hge]

/-- C9: degradation hysteresis as a step relation over monitor samples.
From any level with both counters clear, an upward level change happens
exactly on the 2nd consecutive sample whose target is above the current
level (no change on the 1st), a downward change happens exactly on the 4th
consecutive sample whose target is below the current level (no change on
the 1st, 2nd, 3rd), and a sample whose target neither lies above nor below
the current level leaves the level unchanged and resets both counters. -/
theorem C9_degradation_hysteresis
    (s : MonitorState)
    (hh : s.high_load_ticks = 0) (hn : s.normal_load_ticks = 0)
    (c1 r1 c2 r2 : ℚ) (d1 e1 d2 e2 d3 e3 d4 e4 : ℚ)
    (u : MonitorState) (c r : ℚ) :
    -- escalation: 1st high sample changes nothing, 2nd escalates
    ((targetLevel c1 r1).value > s.current_level.value →
      (monitorStep s c1 r1).current_level = s.current_level ∧
      ((targetLevel c2 r2).value > s.current_level.value →
        (monitorStep (monitorStep s c1 r1) c2 r2).current_level = targetLevel c2 r2))
    ∧
    -- recovery: 1st..3rd low samples change nothing, 4th recovers
    ((targetLevel d1 e1).value < s.current_level.value →
      (monitorStep s d1 e1).current_level = s.current_level ∧
      ((targetLevel d2 e2).value < s.current_level.value →
        (monitorStep (monitorStep s d1 e1) d2 e2).current_level = s.current_level ∧
        ((targetLevel d3 e3).value < s.current_level.value →
          (monitorStep (monitorStep (monitorStep s d1 e1) d2 e2) d3 e3).current_level
            = s.current_level ∧
          ((targetLevel d4 e4).value < s.current_level.value →
            (monitorStep (monitorStep (monitorStep (monitorStep s d1 e1) d2 e2) d3 e3)
              d4 e4).current_level = targetLevel d4 e4))))
    ∧
    -- a sample at the current level resets both counters, level unchanged
    (targetLevel c r = u.current_level →
      monitorStep u c r
        = { current_level := u.current_level, high_load_ticks := 0, normal_load_ticks := 0 }) := by
  refine ⟨?_, ?_, ?_⟩
  · intro h1
    have s1 : monitorStep s c1 r1
        = { current_level := s.current_level, high_load_ticks := 1, normal_load_ticks := 0 } := by
      rw [monitorStep_high_noesc s c1 r1 h1 (by rw [hh]; decide)]
      simp [hh]
    constructor
    · rw [s1]
    · intro h2
      rw [s1, monitorStep_high_esc
        { current_level := s.current_level, high_load_ticks := 1, normal_load_ticks := 0 }
        c2 r2 h2 (by show (1:Nat) + 1 ≥ ESCALATION_THRESHOLD; decide)]
  · intro h1
    have s1 : monitorStep s d1 e1
        = { current_level := s.current_level, high_load_ticks := 0, normal_load_ticks := 1 } := by
      rw [monitorStep_low_norec s d1 e1 h1 (by rw [hn]; decide)]
      simp [hn]
    refine ⟨by rw [s1], ?_⟩
    intro h2
    have s2 : monitorStep (monitorStep s d1 e1) d2 e2
        = { current_level := s.current_level, high_load_ticks := 0, normal_load_ticks := 2 } := by
      rw [s1, monitorStep_low_norec
        { current_level := s.current_level, high_load_ticks := 0, normal_load_ticks := 1 }
        d2 e2 h2 (by show (1:Nat) + 1 < RECOVERY_THRESHOLD; decide)]
    refine ⟨by rw [s2], ?_⟩
    intro h3
    have s3 : monitorStep (monitorStep (monitorStep s d1 e1) d2 e2) d3 e3
        = { current_level := s.current_level, high_load_ticks := 0, normal_load_ticks := 3 } := by
      rw [s2, monitorStep_low_norec
        { current_level := s.current_level, high_load_ticks := 0, normal_load_ticks := 2 }
        d3 e3 h3 (by show (2:Nat) + 1 < RECOVERY_THRESHOLD; decide)]
    refine ⟨by rw [s3], ?_⟩
    intro h4
    rw [s3, monitorStep_low_rec
      { current_level := s.current_level, high_load_ticks := 0, normal_load_ticks := 3 }
      d4 e4 h4 (by show (3:Nat) + 1 ≥ RECOVERY_THRESHOLD; decide)]
  · intro h
    have hv : (targetLevel c r).value = u.current_level.value := by rw [h]
    unfold monitorStep
    rw [if_neg (by omega), if_neg (by omega)]

/-- Witness for C9 at a concrete instance: from D0 with clear counters, two
consecutive samples with cpu = 90 (target D2) escalate on the second sample
and not on the first. -/
theorem C9_degradation_hysteresis_witness :
    (targetLevel 90 10).value
      > (MonitorState.mk .D0_NORMAL 0 0).current_level.value ∧
    (monitorStep (MonitorState.mk .D0_NORMAL 0 0) 90 10).current_level = .D0_NORMAL ∧
    (monitorStep (monitorStep (MonitorState.mk .D0_NORMAL 0 0) 90 10) 90 10).current_level
      = .D2_MINIMAL := by
  have h := C9_degradation_hysteresis (MonitorState.mk .D0_NORMAL 0 0) rfl rfl
    90 10 90 10 0 0 0 0 0 0 0 0 (MonitorState.mk .D0_NORMAL 0 0) 0 0
  have h1 : (targetLevel 90 10).value
      > (MonitorState.mk .D0_NORMAL 0 0).current_level.value := by decide
  refine ⟨h1, ?_, ?_⟩
  · exact (h.1 h1).1
  · have := (h.1 h1).2 h1
    rw [this]
    decide

/-- C4: contract freshness is a pure function of wall-clock time and the
(issued_at, expires_at) pair: with ttl T > 0 and elapsed time t since
issuance, the computed freshness is "fresh" exactly when t < 0.8·T,
"stale" exactly when 0.8·T ≤ t < T, and "expired" exactly when t ≥ T. -/
theorem C4_freshness_lifecycle (t0 T t : ℚ) (hT : 0 < T) :
    (computeFreshness (t0 + t) t0 (t0 + T) = "fresh" ↔ t < (4/5) * T) ∧
    (computeFreshness (t0 + t) t0 (t0 + T) = "stale" ↔ (4/5) * T ≤ t ∧ t < T) ∧
    (computeFreshness (t0 + t) t0 (t0 + T) = "expired" ↔ T ≤ t) := by
  have hexp : (t0 + T ≤ t0 + t) ↔ T ≤ t := by constructor <;> intro h <;> linarith
  by_cases hle : T ≤ t
  · have : computeFreshness (t0 + t) t0 (t0 + T) = "expired" := by
      unfold computeFreshness
      rw [if_pos (hexp.mpr hle)]
    refine ⟨?_, ?_, ?_⟩ <;> rw [this]
    · simp only [show ("expired" = "fresh") = False by simp, false_iff, not_lt]
      calc (4/5) * T ≤ T := by nlinarith
        _ ≤ t := hle
    · constructor
      · intro h; exact absurd h (by decide)
      · rintro ⟨-, h2⟩; exact absurd hle (not_le.mpr h2)
    · simp [hle]
  · push_neg at hle
    have hne : ¬ (t0 + T ≤ t0 + t) := fun h => absurd (hexp.mp h) (not_le.mpr hle)
    have htot : t0 + T - t0 = T := by ring
    have hel : t0 + t - t0 = t := by ring
    have hpos : ¬ (T ≤ (0:ℚ)) := not_le.mpr hT
    have hdiv : t / T < 4/5 ↔ t < (4/5) * T := by
      rw [div_lt_iff₀ hT]
    by_cases hfr : t < (4/5) * T
    · have : computeFreshness (t0 + t) t0 (t0 + T) = "fresh" := by
        unfold computeFreshness
        rw [if_neg hne]
        simp only [htot, hel]
        rw [if_neg hpos, if_pos (hdiv.mpr hfr)]
      refine ⟨?_, ?_, ?_⟩ <;> rw [this]
      · simp [hfr]
      · constructor
        · intro h; exact absurd h (by decide)
        · rintro ⟨h1, -⟩; exact absurd hfr (not_lt.mpr h1)
      · constructor
        · intro h; exact absurd h (by decide)
        · intro h; exact absurd hle (not_lt.mpr h)
    · have : computeFreshness (t0 + t) t0 (t0 + T) = "stale" := by
        unfold computeFreshness
        rw [if_neg hne]
        simp only [htot, hel]
        rw [if_neg hpos, if_neg (fun h => hfr (hdiv.mp h))]
      refine ⟨?_, ?_, ?_⟩ <;> rw [this]
      · constructor
        · intro h; exact absurd h (by decide)
        · intro h; exact absurd h hfr
      · simp [not_lt.mp hfr, hle]
      · constructor
        · intro h; exact absurd h (by decide)
        · intro h; exact absurd hle (not_lt.mpr h)

/-- Witness for C4 at T = 10: at elapsed 3 the contract is fresh, at 8 it
is stale, at 10 it is expired. -/
theorem C4_freshness_lifecycle_witness :
    (0:ℚ) < 10 ∧
    computeFreshness (0 + 3) 0 (0 + 10) = "fresh" ∧
    computeFreshness (0 + 8) 0 (0 + 10) = "stale" ∧
    computeFreshness (0 + 10) 0 (0 + 10) = "expired" := by
  refine ⟨by norm_num, ?_, ?_, ?_⟩
  · exact ((C4_freshness_lifecycle 0 10 3 (by norm_num)).1).mpr (by norm_num)
  · exact ((C4_freshness_lifecycle 0 10 8 (by norm_num)).2.1).mpr (by constructor <;> norm_num)
  · exact ((C4_freshness_lifecycle 0 10 10 (by norm_num)).2.2).mpr (by norm_num)


/-! ## Lemmas about the ordered-dict store and the proof log -/

lemma odGet_map_set {β : Type} (k : String) (v : β) :
    ∀ m : List (String × β), (odGet m k).isSome →
      odGet (m.map (fun p => if p.1 = k then (k, v) else p)) k = some v := by
  intro m
  induction m with
  | nil => intro h; simp [odGet] at h
  | cons p t ih =>
      obtain ⟨a, b⟩ := p
      intro h
      simp only [List.map_cons]
      by_cases hp : a = k
      · subst hp
        rw [if_pos (show (a, b).1 = a from rfl)]
        simp [odGet]
      · rw [if_neg (show ¬ (a, b).1 = k from hp)]
        simp only [odGet, if_neg hp] at h
        simp [odGet, hp, ih h]

lemma odGet_append_new {β : Type} (k : String) (v : β) :
    ∀ m : List (String × β), odGet m k = none →
      odGet (m ++ [(k, v)]) k = some v := by
  intro m
  induction m with
  | nil => intro _; simp [odGet]
  | cons p t ih =>
      obtain ⟨a, b⟩ := p
      intro h
      by_cases hp : a = k
      · simp [odGet, hp] at h
      · simp only [odGet, if_neg hp] at h
        simp [odGet, hp, ih h]

lemma odGet_odSet_self {β : Type} (m : List (String × β)) (k : String) (v : β) :
    odGet (odSet m k v) k = some v := by
  unfold odSet
  by_cases h : (odGet m k).isSome
  · rw [if_pos h]; exact odGet_map_set k v m h
  · rw [if_neg h]
    exact odGet_append_new k v m (Option.not_isSome_iff_eq_none.mp h)

lemma appendProof_getLast (hashEntry : ProofEntry → String) (now : ℚ)
    (event_type key : String) (ctx : Ctx) (log : List ProofEntry) :
    (appendProof hashEntry now event_type key ctx log).getLast?
      = some (mkProofEntry hashEntry now event_type key ctx log) := by
  unfold appendProof
  by_cases h : (log ++ [mkProofEntry hashEntry now event_type key ctx log]).length > MAX_PROOF_LOG
  · rw [if_pos h]
    rw [List.drop_append_eq_append_drop]
    have h0 : (log ++ [mkProofEntry hashEntry now event_type key ctx log]).length
        - MAX_PROOF_LOG - log.length = 0 := by
      simp only [List.length_append, List.length_singleton, MAX_PROOF_LOG]
      omega
    rw [h0, List.drop_zero, List.getLast?_concat]
  · rw [if_neg h, List.getLast?_concat]

lemma appendProof_length (hashEntry : ProofEntry → String) (now : ℚ)
    (event_type key : String) (ctx : Ctx) (log : List ProofEntry)
    (hle : log.length ≤ MAX_PROOF_LOG) :
    (appendProof hashEntry now event_type key ctx log).length
      = min (log.length + 1) MAX_PROOF_LOG := by
  unfold appendProof
  by_cases h : (log ++ [mkProofEntry hashEntry now event_type key ctx log]).length > MAX_PROOF_LOG
  · rw [if_pos h]
    rw [List.length_drop]
    simp only [List.length_append, List.length_singleton, MAX_PROOF_LOG] at h hle ⊢
    omega
  · rw [if_neg h]
    simp only [List.length_append, List.length_singleton, MAX_PROOF_LOG] at h hle ⊢
    omega

lemma computeFreshness_issue (t T : ℚ) (hT : 0 < T) :
    computeFreshness t t (t + T) = "fresh" := by
  unfold computeFreshness
  rw [if_neg (by intro h; nlinarith)]
  have h1 : t + T - t = T := by ring
  have h2 : t - t = (0:ℚ) := by ring
  simp only [h1, h2]
  rw [if_neg (not_le.mpr hT), if_pos (by rw [zero_div]; norm_num)]

lemma computeFreshness_not_expired (now t0 T : ℚ) (hT : 0 < T) (hlt : now < t0 + T) :
    computeFreshness now t0 (t0 + T) ≠ "expired" := by
  unfold computeFreshness
  rw [if_neg (not_le.mpr hlt)]
  have h1 : t0 + T - t0 = T := by ring
  simp only [h1]
  rw [if_neg (not_le.mpr hT)]
  by_cases h : (now - t0) / T < 4/5
  · rw [if_pos h]; decide
  · rw [if_neg h]; decide

lemma exec_idempotent_hit {α γ : Type} (hashEntry : ProofEntry → String)
    (now : ℚ) (uuid : String) (lat : Nat → ℚ) (fn : Nat → γ → Except String α) (args : γ)
    (st : DeliveryState α) (skill_ref : String) (ttl : ℚ) (K : String)
    (ex : Contract α) (hK : K ≠ "")
    (hget : odGet st.contracts K = some ex)
    (hxk : ex.idempotency_key = K)
    (hcomp : ex.execution_status = "completed")
    (hfr : computeFreshness now ex.issued_at ex.expires_at ≠ "expired") :
    executeWithContract hashEntry now uuid lat fn args st skill_ref ttl (some K) none =
      (ExecOutcome.idempotent ex.execution_result
          { ex with freshness := computeFreshness now ex.issued_at ex.expires_at },
        { contracts := odSet st.contracts K
            { ex with freshness := computeFreshness now ex.issued_at ex.expires_at },
          proof_log := appendProof hashEntry now "IDEMPOTENT_RETURN" K
            [("reason", CtxV.s "already_executed")] st.proof_log }) := by
  unfold executeWithContract issueContract
  rw [if_neg (show ¬ (none : Option Bool) = some false by simp)]
  simp only [if_neg hK, hget, if_pos hfr, hxk, hcomp, if_pos rfl, if_true]

lemma runAttempts_succ_ok {α γ : Type} (hashEntry : ProofEntry → String)
    (now : ℚ) (lat : Nat → ℚ) (fn : Nat → γ → Except String α) (args : γ)
    (skill_ref key : String) (contract : Contract α) (st : DeliveryState α)
    (attempt remaining : Nat) (lastErr : Option String) (r : α)
    (hfn : fn attempt args = Except.ok r) :
    runAttempts hashEntry now lat fn args skill_ref key contract st
        attempt (remaining + 1) lastErr
      = (ExecOutcome.success r
          { contract with
              execution_result := some r
              execution_status := "completed"
              freshness := computeFreshness now contract.issued_at contract.expires_at },
         { contracts := odSet st.contracts key
             { contract with
                 execution_result := some r
                 execution_status := "completed"
                 freshness := computeFreshness now contract.issued_at contract.expires_at },
           proof_log := appendProof hashEntry now "EXECUTION_SUCCESS" key
             [("skill_ref", CtxV.s skill_ref), ("attempt", CtxV.i (attempt + 1)),
              ("latency_ms", CtxV.q (lat attempt))] st.proof_log }) := by
  simp only [runAttempts, hfn]

/-- Contract stored after a successful first execution under key K. -/
def completedContract (α : Type) (skill_ref : String) (ttl now : ℚ) (K : String)
    (r : α) : Contract α :=
  { skill_ref := skill_ref, ttl_seconds := ttl, freshness := "fresh",
    issued_at := now, expires_at := now + ttl, max_retries := 3,
    idempotency_key := K, retries_used := 0, execution_result := some r,
    execution_status := "completed" }

lemma exec_first_success {α γ : Type} (hashEntry : ProofEntry → String)
    (now : ℚ) (uuid : String) (lat : Nat → ℚ) (fn : Nat → γ → Except String α) (args : γ)
    (st : DeliveryState α) (skill_ref : String) (ttl : ℚ) (K : String) (r : α)
    (hK : K ≠ "") (habs : odGet st.contracts K = none)
    (httl : 0 < ttl) (hfn : fn 0 args = Except.ok r) :
    (executeWithContract hashEntry now uuid lat fn args st skill_ref ttl (some K) none).1
      = ExecOutcome.success r (completedContract α skill_ref ttl now K r) ∧
    odGet (executeWithContract hashEntry now uuid lat fn args st skill_ref ttl
        (some K) none).2.contracts K
      = some (completedContract α skill_ref ttl now K r) := by
  have hfr := computeFreshness_issue now ttl httl
  refine ⟨?_, ?_⟩ <;>
  · unfold executeWithContract issueContract
    rw [if_neg (show ¬ (none : Option Bool) = some false by simp)]
    simp only [if_neg hK, habs, hfr,
      if_neg (show ¬ ("pending" : String) = "completed" by decide),
      if_neg (show ¬ ("fresh" : String) = "expired" by decide)]
    rw [runAttempts_succ_ok hashEntry now lat fn args skill_ref K _ _ 0 3 none r hfn]
    simp only [hfr, completedContract, odGet_odSet_self]

/-- C2: completed delivery contracts are idempotent for the lifetime of
their key: if a first execute_with_contract call with key K succeeds, a
subsequent call with K while the contract is still live (not yet expired,
still stored) returns the cached result of the first call marked
idempotent, and appends an IDEMPOTENT_RETURN entry for K to the proof
log. -/
theorem C2_delivery_idempotency {α γ : Type} (hashEntry : ProofEntry → String)
    (t1 t2 : ℚ) (u1 u2 : String) (lat1 lat2 : Nat → ℚ)
    (fn1 fn2 : Nat → γ → Except String α) (args1 args2 : γ)
    (st : DeliveryState α) (skill_ref : String) (ttl : ℚ) (K : String) (r : α)
    (hK : K ≠ "") (habs : odGet st.contracts K = none)
    (httl : 0 < ttl) (hfn : fn1 0 args1 = Except.ok r) (ht2 : t2 < t1 + ttl) :
    (executeWithContract hashEntry t1 u1 lat1 fn1 args1 st skill_ref ttl (some K) none).1
      = ExecOutcome.success r (completedContract α skill_ref ttl t1 K r) ∧
    (executeWithContract hashEntry t2 u2 lat2 fn2 args2
        (executeWithContract hashEntry t1 u1 lat1 fn1 args1 st skill_ref ttl (some K) none).2
        skill_ref ttl (some K) none).1
      = ExecOutcome.idempotent (some r)
          { completedContract α skill_ref ttl t1 K r with
              freshness := computeFreshness t2 t1 (t1 + ttl) } ∧
    ((executeWithContract hashEntry t2 u2 lat2 fn2 args2
        (executeWithContract hashEntry t1 u1 lat1 fn1 args1 st skill_ref ttl (some K) none).2
        skill_ref ttl (some K) none).2.proof_log.getLast?).map
        (fun e => (e.event_type, e.idempotency_key))
      = some ("IDEMPOTENT_RETURN", K) := by
  obtain ⟨h1, h2⟩ := exec_first_success hashEntry t1 u1 lat1 fn1 args1 st
    skill_ref ttl K r hK habs httl hfn
  have hfr2 : computeFreshness t2 (completedContract α skill_ref ttl t1 K r).issued_at
      (completedContract α skill_ref ttl t1 K r).expires_at ≠ "expired" := by
    show computeFreshness t2 t1 (t1 + ttl) ≠ "expired"
    exact computeFreshness_not_expired t2 t1 ttl httl ht2
  have hx := exec_idempotent_hit hashEntry t2 u2 lat2 fn2 args2
    (executeWithContract hashEntry t1 u1 lat1 fn1 args1 st skill_ref ttl (some K) none).2
    skill_ref ttl K (completedContract α skill_ref ttl t1 K r) hK h2 rfl rfl hfr2
  refine ⟨h1, ?_, ?_⟩
  · rw [hx]; rfl
  · rw [hx]
    simp only [appendProof_getLast, mkProofEntry]
    rfl

/-- Witness for C2: a concrete two-call run at times 0 and 1 with ttl 300,
key "K1", and a skill returning 5. -/
theorem C2_delivery_idempotency_witness :
    (("K1" : String) ≠ "") ∧
    ((executeWithContract (α := Nat) (γ := Nat) (fun _ => "h") 0 "u" (fun _ => 0)
        (fun _ _ => Except.ok 5) 0 ⟨[], []⟩ "org.calc" 300 (some "K1") none).1
      = ExecOutcome.success 5 (completedContract Nat "org.calc" 300 0 "K1" 5) ∧
    (executeWithContract (fun _ => "h") 1 "u" (fun _ => 0) (fun _ _ => Except.ok 5) 0
        (executeWithContract (α := Nat) (γ := Nat) (fun _ => "h") 0 "u" (fun _ => 0)
          (fun _ _ => Except.ok 5) 0 ⟨[], []⟩ "org.calc" 300 (some "K1") none).2
        "org.calc" 300 (some "K1") none).1
      = ExecOutcome.idempotent (some 5)
          { completedContract Nat "org.calc" 300 0 "K1" 5 with
              freshness := computeFreshness 1 0 (0 + 300) } ∧
    ((executeWithContract (fun _ => "h") 1 "u" (fun _ => 0) (fun _ _ => Except.ok 5) 0
        (executeWithContract (α := Nat) (γ := Nat) (fun _ => "h") 0 "u" (fun _ => 0)
          (fun _ _ => Except.ok 5) 0 ⟨[], []⟩ "org.calc" 300 (some "K1") none).2
        "org.calc" 300 (some "K1") none).2.proof_log.getLast?).map
        (fun e => (e.event_type, e.idempotency_key))
      = some ("IDEMPOTENT_RETURN", "K1")) := by
  refine ⟨by decide, ?_⟩
  exact C2_delivery_idempotency (fun _ => "h") 0 1 "u" "u" (fun _ => 0) (fun _ => 0)
    (fun _ _ => Except.ok 5) (fun _ _ => Except.ok 5) 0 0 ⟨[], []⟩ "org.calc" 300 "K1" 5
    (by decide) rfl (by norm_num) rfl (by norm_num)

/-! ## Claim C3: proof-log chain invariant -/

/-- The chain invariant asserted by the specification for the proof log:
genesis prev_hash on the first entry, each later entry chaining to the
hash of its immediate predecessor, and strictly increasing sequence
numbers. -/
def proofChainClaim (hashEntry : ProofEntry → String) (log : List ProofEntry) : Prop :=
  (∀ e ∈ log.head?, e.prev_hash = genesisHash) ∧
  List.Chain' (fun a b => b.prev_hash = hashEntry a) log ∧
  List.Chain' (fun a b => a.sequence < b.sequence) log

/-- Arguments of one _append_proof call. -/
structure AppendOp where
  event_type : String
  key : String
  timestamp : ℚ
  context : Ctx

/-- A sequence of _append_proof calls applied to a log. -/
def applyAppends (hashEntry : ProofEntry → String) (ops : List AppendOp)
    (log : List ProofEntry) : List ProofEntry :=
  ops.foldl (fun l o => appendProof hashEntry o.timestamp o.event_type o.key o.context l) log

/-- Induction invariant: the claimed chain shape plus the fact that the
last sequence number is length - 1. -/
def chainInv (hashEntry : ProofEntry → String) (log : List ProofEntry) : Prop :=
  proofChainClaim hashEntry log ∧ ∀ e ∈ log.getLast?, e.sequence + 1 = log.length

lemma chainInv_empty (hashEntry : ProofEntry → String) : chainInv hashEntry [] := by
  refine ⟨⟨?_, ?_, ?_⟩, ?_⟩ <;> simp

lemma chainInv_append (h : ProofEntry → String) (t : ℚ) (ev k : String) (c : Ctx)
    (log : List ProofEntry) (hinv : chainInv h log) (hlen : log.length < MAX_PROOF_LOG) :
    chainInv h (appendProof h t ev k c log) := by
  obtain ⟨⟨hgen, hhash, hseq⟩, hlast⟩ := hinv
  have hres : appendProof h t ev k c log = log ++ [mkProofEntry h t ev k c log] := by
    unfold appendProof
    rw [if_neg]
    simp only [List.length_append, List.length_singleton]
    omega
  rw [hres]
  refine ⟨⟨?_, ?_, ?_⟩, ?_⟩
  · cases log with
    | nil =>
        intro x hx
        simp only [List.nil_append, List.head?_cons, Option.mem_def, Option.some.injEq] at hx
        subst hx
        simp [mkProofEntry]
    | cons a l =>
        intro x hx
        simp only [List.cons_append, List.head?_cons, Option.mem_def, Option.some.injEq] at hx
        subst hx
        exact hgen a (by simp)
  · rw [List.chain'_append]
    refine ⟨hhash, List.chain'_singleton _, ?_⟩
    intro x hx y hy
    simp only [List.head?_cons, Option.mem_def, Option.some.injEq] at hy
    subst hy
    rw [Option.mem_def] at hx
    simp [mkProofEntry, hx]
  · rw [List.chain'_append]
    refine ⟨hseq, List.chain'_singleton _, ?_⟩
    intro x hx y hy
    simp only [List.head?_cons, Option.mem_def, Option.some.injEq] at hy
    subst hy
    have hx2 := hlast x hx
    simp only [mkProofEntry]
    omega
  · intro x hx
    rw [Option.mem_def, List.getLast?_concat, Option.some.injEq] at hx
    subst hx
    simp [mkProofEntry]

lemma chainInv_fold (h : ProofEntry → String) :
    ∀ (ops : List AppendOp) (log : List ProofEntry),
      chainInv h log → log.length + ops.length ≤ MAX_PROOF_LOG →
      chainInv h (applyAppends h ops log) := by
  intro ops
  induction ops with
  | nil => intro log hinv _; simpa [applyAppends] using hinv
  | cons o rest ih =>
      intro log hinv hlen
      simp only [applyAppends, List.foldl_cons]
      have hlt : log.length < MAX_PROOF_LOG := by
        simp only [List.length_cons] at hlen; omega
      have h1 := chainInv_append h o.timestamp o.event_type o.key o.context log hinv hlt
      have h2 : (appendProof h o.timestamp o.event_type o.key o.context log).length
          = min (log.length + 1) MAX_PROOF_LOG :=
        appendProof_length h o.timestamp o.event_type o.key o.context log (le_of_lt hlt)
      exact ih _ h1 (by simp only [List.length_cons] at hlen; omega)

/-- C3 (amended): as long as at most MAX_PROOF_LOG = 5000 entries have
been appended, so the ring buffer has never evicted, the proof log
satisfies the chain invariant: genesis prev_hash of 64 zeros on the first
entry, each later entry's prev_hash equal to the hash of the serialized
immediately-preceding entry, and strictly increasing sequence numbers. -/
theorem C3_proof_chain_bounded (hashEntry : ProofEntry → String)
    (ops : List AppendOp) (hlen : ops.length ≤ 5000) :
    proofChainClaim hashEntry (applyAppends hashEntry ops []) :=
  (chainInv_fold hashEntry ops [] (chainInv_empty hashEntry)
    (by simpa [MAX_PROOF_LOG] using hlen)).1

/-- Iterated _append_proof with fixed arguments, for the C3
counterexample. -/
def repAppendC3 (n : Nat) : List ProofEntry :=
  applyAppends (fun _ => "h") (List.replicate n (AppendOp.mk "EXECUTION_SUCCESS" "K" 0 [])) []

lemma repAppendC3_zero : repAppendC3 0 = [] := rfl

lemma repAppendC3_succ (n : Nat) :
    repAppendC3 (n + 1)
      = appendProof (fun _ => "h") 0 "EXECUTION_SUCCESS" "K" [] (repAppendC3 n) := by
  unfold repAppendC3 applyAppends
  rw [List.replicate_succ', List.foldl_append]
  rfl

attribute [irreducible] repAppendC3

lemma repAppendC3_le : ∀ n, (repAppendC3 n).length ≤ MAX_PROOF_LOG := by
  intro n
  induction n with
  | zero => rw [repAppendC3_zero]; simp [MAX_PROOF_LOG]
  | succ n ih =>
      rw [repAppendC3_succ, appendProof_length _ _ _ _ _ _ ih]
      omega

lemma repAppendC3_length : ∀ n, (repAppendC3 n).length = min n MAX_PROOF_LOG := by
  intro n
  induction n with
  | zero => rw [repAppendC3_zero]; simp
  | succ n ih =>
      rw [repAppendC3_succ, appendProof_length _ _ _ _ _ _ (repAppendC3_le n), ih]
      simp only [MAX_PROOF_LOG]
      omega

lemma repAppendC3_last_seq (n : Nat) :
    ((repAppendC3 (n + 1)).getLast?).map (fun e => e.sequence)
      = some (min n MAX_PROOF_LOG) := by
  rw [repAppendC3_succ, appendProof_getLast]
  simp [mkProofEntry, repAppendC3_length]

lemma getLast?_drop_one {δ : Type} :
    ∀ (l : List δ), 2 ≤ l.length → (l.drop 1).getLast? = l.getLast?
  | [], h => by simp at h
  | [x], h => by simp at h
  | x :: y :: t, _ => by
      simp only [List.drop_succ_cons, List.drop_zero, List.getLast?_cons_cons]

/-- C3 counterexample: after 5002 appends the ring buffer has evicted,
and the log no longer satisfies the claimed invariant: the last two
retained entries both carry sequence number 5000, so sequence numbers do
not strictly increase across the 5000-entry bound. -/
theorem C3_proof_chain_counterexample :
    ¬ proofChainClaim (fun _ => "h") (repAppendC3 5002) := by
  intro hclaim
  have hseq := And.right (And.right hclaim)
  have hplen : (repAppendC3 5001).length = 5000 := by
    rw [repAppendC3_length]
    simp only [MAX_PROOF_LOG]
    omega
  have hlast := repAppendC3_last_seq 5000
  rw [show (5000 + 1 : Nat) = 5001 from rfl] at hlast
  obtain ⟨a, ha, haseq⟩ : ∃ a, (repAppendC3 5001).getLast? = some a ∧ a.sequence = 5000 := by
    cases hgl : (repAppendC3 5001).getLast? with
    | none => rw [hgl] at hlast; simp at hlast
    | some a =>
        rw [hgl] at hlast
        simp only [Option.map_some', Option.some.injEq] at hlast
        refine ⟨a, rfl, ?_⟩
        rw [hlast]
        simp only [MAX_PROOF_LOG]
        omega
  have hc : ((repAppendC3 5001)
      ++ [mkProofEntry (fun _ => "h") 0 "EXECUTION_SUCCESS" "K" [] (repAppendC3 5001)]).length
      > MAX_PROOF_LOG := by
    rw [List.length_append, hplen]
    simp only [List.length_singleton, MAX_PROOF_LOG]
    omega
  have hevict : repAppendC3 5002
      = (repAppendC3 5001).drop 1
        ++ [mkProofEntry (fun _ => "h") 0 "EXECUTION_SUCCESS" "K" [] (repAppendC3 5001)] := by
    rw [show (5002 : Nat) = 5001 + 1 from rfl, repAppendC3_succ]
    unfold appendProof
    rw [if_pos hc]
    rw [List.drop_append_eq_append_drop]
    have h1 : ((repAppendC3 5001)
        ++ [mkProofEntry (fun _ => "h") 0 "EXECUTION_SUCCESS" "K" [] (repAppendC3 5001)]).length
        - MAX_PROOF_LOG = 1 := by
      rw [List.length_append, hplen]
      simp only [List.length_singleton, MAX_PROOF_LOG]
    have h2 : 1 - (repAppendC3 5001).length = 0 := by rw [hplen]
    rw [h1, h2, List.drop_zero]
  rw [hevict, List.chain'_append] at hseq
  have hlink := And.right (And.right hseq)
  have hdl : ((repAppendC3 5001).drop 1).getLast? = some a := by
    rw [getLast?_drop_one _ (by rw [hplen]; omega)]
    exact ha
  have hcon := hlink a (by rw [Option.mem_def]; exact hdl)
    (mkProofEntry (fun _ => "h") 0 "EXECUTION_SUCCESS" "K" [] (repAppendC3 5001))
    (by simp)
  simp only [mkProofEntry, haseq, hplen] at hcon
  omega

/-- Witness for C3 (amended) at a concrete instance: two appends from the
empty log satisfy the chain invariant. -/
theorem C3_proof_chain_bounded_witness :
    ([AppendOp.mk "CONTRACT_ISSUED" "K1" 0 [],
      AppendOp.mk "EXECUTION_SUCCESS" "K1" 1 []].length ≤ 5000) ∧
    proofChainClaim (fun _ => "h")
      (applyAppends (fun _ => "h")
        [AppendOp.mk "CONTRACT_ISSUED" "K1" 0 [],
         AppendOp.mk "EXECUTION_SUCCESS" "K1" 1 []] []) :=
  ⟨by decide,
   C3_proof_chain_bounded (fun _ => "h")
     [AppendOp.mk "CONTRACT_ISSUED" "K1" 0 [],
      AppendOp.mk "EXECUTION_SUCCESS" "K1" 1 []] (by decide)⟩

/-! ## Claim C8: registry revocation -/

lemma revoke_success_revoked (hashL : RegLogEntry → String) (admin : Option String)
    (now : ℚ) (st : RegistryState) (s by_ : String)
    (h : (revoke hashL admin now st s by_).1 = RegResult.revokedOk s) :
    (revoke hashL admin now st s by_).2.revoked = s :: st.revoked := by
  unfold revoke at h ⊢
  split at h
  · simp at h
  · rename_i hs
    split at h
    · simp at h
    · rename_i existing heq
      split at h
      · simp at h
      · rename_i hauth
        simp only [if_neg hs, heq]
        rw [if_neg hauth]

lemma register_revoked_unchanged (cryptoVerify : RegEntryIn → Bool)
    (hashL : RegLogEntry → String) (now : ℚ) (ts : Int) (st : RegistryState)
    (e : RegEntryIn) :
    (register cryptoVerify hashL now ts st e).2.revoked = st.revoked := by
  unfold register
  split
  · rfl
  · split
    · rfl
    · split
      · rfl
      · split
        · rfl
        · split
          · rfl
          · split
            · rfl
            · split
              · rfl
              · rfl

lemma revoke_revoked_mono (hashL : RegLogEntry → String) (admin : Option String)
    (now : ℚ) (st : RegistryState) (r by_ s : String)
    (h : s ∈ st.revoked) :
    s ∈ (revoke hashL admin now st r by_).2.revoked := by
  unfold revoke
  split
  · exact h
  · split
    · exact h
    · split
      · exact h
      · exact List.mem_cons_of_mem _ h

lemma applyRegOps_revoked_mono (cryptoVerify : RegEntryIn → Bool)
    (hashL : RegLogEntry → String) (admin : Option String) (s : String) :
    ∀ (ops : List RegOp) (st : RegistryState), s ∈ st.revoked →
      s ∈ (applyRegOps cryptoVerify hashL admin ops st).revoked := by
  intro ops
  induction ops with
  | nil => intro st h; simpa [applyRegOps] using h
  | cons o rest ih =>
      intro st h
      simp only [applyRegOps, List.foldl_cons]
      refine ih _ ?_
      cases o with
      | doRegister e now ts =>
          simp only [applyRegOp]
          rw [register_revoked_unchanged]
          exact h
      | doRevoke r by_ now =>
          exact revoke_revoked_mono hashL admin now st r by_ s h

lemma register_revoked_is_error (cryptoVerify : RegEntryIn → Bool)
    (hashL : RegLogEntry → String) (now : ℚ) (ts : Int) (st : RegistryState)
    (e : RegEntryIn) (h : e.skill_ref ∈ st.revoked) :
    ∃ msg, (register cryptoVerify hashL now ts st e).1 = RegResult.error msg := by
  unfold register
  split
  · exact ⟨_, rfl⟩
  · split
    · exact ⟨_, rfl⟩
    · split
      · exact ⟨_, rfl⟩
      · split
        · exact ⟨_, rfl⟩
        · split
          · exact ⟨_, rfl⟩
          · split
            · exact ⟨_, rfl⟩
            · exact ⟨_, rfl⟩

lemma register_revoked_named (cryptoVerify : RegEntryIn → Bool)
    (hashL : RegLogEntry → String) (now : ℚ) (ts : Int) (st : RegistryState)
    (e : RegEntryIn) (h : e.skill_ref ∈ st.revoked)
    (h1 : e.entry_type ∈ (["REGISTER", "DELEGATE", "KEY_ROTATE"] : List String))
    (h2 : e.skill_ref ≠ "")
    (h3 : ¬ (e.content_hash = "" ∨ e.content_hash.length ≠ 64))
    (h4 : e.signature ≠ "")
    (h5 : (verifyTrustChain e).1 = true)
    (h6 : verifySignature cryptoVerify e = true) :
    (register cryptoVerify hashL now ts st e).1
      = RegResult.error ("Skill '" ++ e.skill_ref ++ "' has been revoked") := by
  unfold register
  rw [if_neg (not_not_intro h1), if_neg h2, if_neg h3, if_neg h4,
    if_neg (by simp [h5]), if_neg (by simp [h6]), if_pos h]

/-- C8 (amended): registry revocation is permanent.  After revoke(s) has
succeeded, then after any further sequence of register/revoke operations,
no register call for s is ever accepted: every such call returns an
error, and when the entry passes the preceding validation gates (valid
entry_type, non-empty skill_ref, 64-char content_hash, non-empty
signature, valid trust chain, passing signature verification) the error
is exactly the one naming the revocation. -/
theorem C8_registry_revocation (cryptoVerify : RegEntryIn → Bool)
    (hashL : RegLogEntry → String) (admin : Option String)
    (st0 : RegistryState) (s by_ : String) (t0 : ℚ) (ops : List RegOp)
    (e : RegEntryIn) (now : ℚ) (ts : Int)
    (hrev : (revoke hashL admin t0 st0 s by_).1 = RegResult.revokedOk s)
    (he : e.skill_ref = s) :
    (∃ msg,
      (register cryptoVerify hashL now ts
        (applyRegOps cryptoVerify hashL admin ops (revoke hashL admin t0 st0 s by_).2)
        e).1 = RegResult.error msg) ∧
    (e.entry_type ∈ (["REGISTER", "DELEGATE", "KEY_ROTATE"] : List String) →
      e.skill_ref ≠ "" →
      ¬ (e.content_hash = "" ∨ e.content_hash.length ≠ 64) →
      e.signature ≠ "" →
      (verifyTrustChain e).1 = true →
      verifySignature cryptoVerify e = true →
      (register cryptoVerify hashL now ts
        (applyRegOps cryptoVerify hashL admin ops (revoke hashL admin t0 st0 s by_).2)
        e).1 = RegResult.error ("Skill '" ++ s ++ "' has been revoked")) := by
  have hmem0 : s ∈ (revoke hashL admin t0 st0 s by_).2.revoked := by
    rw [revoke_success_revoked hashL admin t0 st0 s by_ hrev]
    exact List.mem_cons_self s _
  have hmem : e.skill_ref
      ∈ (applyRegOps cryptoVerify hashL admin ops (revoke hashL admin t0 st0 s by_).2).revoked := by
    rw [he]
    exact applyRegOps_revoked_mono cryptoVerify hashL admin s ops _ hmem0
  constructor
  · exact register_revoked_is_error cryptoVerify hashL now ts _ e hmem
  · intro h1 h2 h3 h4 h5 h6
    have hn := register_revoked_named cryptoVerify hashL now ts _ e hmem h1 h2 h3 h4 h5 h6
    rw [he] at hn
    exact hn

/-- A concrete well-formed self-signed registry entry used in the C8
counterexample and witness. -/
def c8entry : RegEntryIn :=
  { entry_type := "REGISTER", skill_ref := "org.demo",
    content_hash := String.mk (List.replicate 64 'a'),
    signature := "c2ln", alg := "ES256", signed_by := "alice",
    trust_anchor := some { atype := "self_signed", uri := "", proof := "", public_key := none } }

/-- The registry state after registering c8entry and then revoking it. -/
def c8state : RegistryState :=
  (revoke (fun _ => "h") none 1
    (register (fun _ => true) (fun _ => "h") 0 0
      { entries := [], log := [], revoked := [] } c8entry).2
    "org.demo" "alice").2

/-- C8 counterexample: after a successful revoke of org.demo, a register
call for org.demo whose entry_type is invalid is rejected with the
entry_type error, not with an error naming the revocation. -/
theorem C8_registry_revocation_counterexample :
    (revoke (fun _ => "h") none 1
      (register (fun _ => true) (fun _ => "h") 0 0
        { entries := [], log := [], revoked := [] } c8entry).2
      "org.demo" "alice").1 = RegResult.revokedOk "org.demo" ∧
    (register (fun _ => true) (fun _ => "h") 2 0 c8state
        { c8entry with entry_type := "REVOKE" }).1
      = RegResult.error "Invalid entry_type for registration: REVOKE" ∧
    RegResult.error "Invalid entry_type for registration: REVOKE"
      ≠ RegResult.error ("Skill '" ++ "org.demo" ++ "' has been revoked") := by
  refine ⟨by decide, by decide, by decide⟩

/-- Witness for C8 (amended): the concrete revoked state, an empty
further operation sequence, and the original well-formed entry, for which
register returns exactly the revocation-naming error. -/
theorem C8_registry_revocation_witness :
    ((revoke (fun _ => "h") none 1
      (register (fun _ => true) (fun _ => "h") 0 0
        { entries := [], log := [], revoked := [] } c8entry).2
      "org.demo" "alice").1 = RegResult.revokedOk "org.demo") ∧
    (c8entry.skill_ref = "org.demo") ∧
    (register (fun _ => true) (fun _ => "h") 2 0
        (applyRegOps (fun _ => true) (fun _ => "h") none []
          (revoke (fun _ => "h") none 1
            (register (fun _ => true) (fun _ => "h") 0 0
              { entries := [], log := [], revoked := [] } c8entry).2
            "org.demo" "alice").2)
        c8entry).1
      = RegResult.error ("Skill '" ++ "org.demo" ++ "' has been revoked") := by
  refine ⟨by decide, by decide, ?_⟩
  exact (C8_registry_revocation (fun _ => true) (fun _ => "h") none
    (register (fun _ => true) (fun _ => "h") 0 0
      { entries := [], log := [], revoked := [] } c8entry).2
    "org.demo" "alice" 1 [] c8entry 2 0
    (by decide) (by decide)).2 (by decide) (by decide) (by decide) (by decide)
    (by decide) (by decide)

/-- C7: two values equal under JSON semantics need not canonicalize to
identical bytes.  The Python int 1 and the Python float 1.0 denote the
same JSON number, yet JCS._encode renders the int branch as "1" via str()
and the float branch via json.dumps, which renders 1.0 as "1.0": the
canonical bytes differ for semantically equal numbers. -/
theorem C7_canonicalization_number_bug (floatRepr : ℚ → String)
    (hf : floatRepr 1 = "1.0") :
    toJson (PyVal.pInt 1) = toJson (PyVal.pFloat 1) ∧
    encodeP floatRepr (PyVal.pInt 1) ≠ encodeP floatRepr (PyVal.pFloat 1) := by
  constructor
  · simp [toJson]
  · simp only [encodeP, hf]
    decide

/-- Witness for C7 at the concrete float rendering json.dumps(1.0) =
"1.0". -/
theorem C7_canonicalization_number_bug_witness :
    ((fun _ => "1.0") : ℚ → String) 1 = "1.0" ∧
    (toJson (PyVal.pInt 1) = toJson (PyVal.pFloat 1) ∧
      encodeP (fun _ => "1.0") (PyVal.pInt 1) ≠ encodeP (fun _ => "1.0") (PyVal.pFloat 1)) :=
  ⟨rfl, C7_canonicalization_number_bug (fun _ => "1.0") rfl⟩

/-! ## Claims C5, C6, C1 -/

def respSkillRef : RouteResponse → Option String
  | RouteResponse.refusal _ _ _ _ _ => none
  | RouteResponse.decision sr _ _ _ _ _ => sr

def respStability : RouteResponse → String
  | RouteResponse.refusal _ _ _ _ _ => ""
  | RouteResponse.decision _ _ _ ds _ _ => ds

def respTieBreak : RouteResponse → Bool
  | RouteResponse.refusal _ _ _ _ _ => false
  | RouteResponse.decision _ _ _ _ tb _ => tb

def respClearance : RouteResponse → String
  | RouteResponse.refusal _ _ _ _ _ => ""
  | RouteResponse.decision _ sc _ _ _ _ => sc

def respApprox : RouteResponse → Bool
  | RouteResponse.refusal _ _ _ _ _ => false
  | RouteResponse.decision _ _ a _ _ _ => a

def respTrace : RouteResponse → List TraceEvent
  | RouteResponse.refusal _ _ _ _ t => t
  | RouteResponse.decision _ _ _ _ _ t => t

/-- Benign router parameters: no prefilter matches, classifier passes,
log stubbed at 1, md5 stubbed as identity, no embedder. -/
def benignParamsC5 : RouterParams :=
  { sqlMatch := fun _ => false, cmdMatch := fun _ => false,
    classify := fun _ => Except.ok none, logQ := fun _ => 1,
    md5Hex := fun s => s, embedder := none }

def initRouterState : RouterState :=
  { safety := { lexical_history := [], semantic_history := [] },
    bm25 := { doc_count := 0, doc_freq := [] },
    cache := [] }

def candCriticalC5 : Candidate :=
  { skill_id := some "a.critical", name := some "Conv",
    description := some "weather forecast", activation_keywords := [],
    risk_level := some "CRITICAL", safety_clearance := none, skill_ref := none }

def candMediumC5 : Candidate :=
  { skill_id := some "b.medium", name := some "Conv",
    description := some "weather forecast", activation_keywords := [],
    risk_level := some "MEDIUM", safety_clearance := none, skill_ref := none }

def reqC5 : RouteRequest :=
  { query := "weather forecast",
    candidate_skills := [candCriticalC5, candMediumC5],
    skip_semantic := true }

/-- C5: in the stage-3 risk narrowing, risk_order maps only LOW, MEDIUM
and HIGH; CRITICAL falls to the dict default 0 and is treated as the
LOWEST risk, not as HIGH.  On a tie between a CRITICAL and a MEDIUM
candidate, the narrowing keeps the CRITICAL candidate and the router
selects it, where the specified order (CRITICAL treated as HIGH) would
select the MEDIUM one. -/
theorem C5_critical_risk_code_bug :
    riskValue candCriticalC5 = 0 ∧
    riskValue candCriticalC5 = riskValue
      { candCriticalC5 with risk_level := some "LOW" } ∧
    riskValue candMediumC5 = 1 ∧
    respSkillRef (route benignParamsC5 0 initRouterState reqC5).1 = some "a.critical" ∧
    respStability (route benignParamsC5 0 initRouterState reqC5).1 = "conflict_resolved" ∧
    respTieBreak (route benignParamsC5 0 initRouterState reqC5).1 = false := by
  refine ⟨by decide, by decide, by decide, ?_, ?_, ?_⟩ <;> decide

/-! ### C6: UTF-8 tiebreak -/

/-- The UTF-8 byte key by which _utf8_tiebreak compares candidates. -/
def tbKey (c : ScoredCand) : List Nat := utf8Bytes (c.cand.skill_id.getD "")

/-- One step of Python min over the tiebreak key (first minimum kept). -/
def tbStep (m c : ScoredCand) : ScoredCand :=
  if bytesLt (tbKey c) (tbKey m) then c else m

lemma utf8Tiebreak_foldl (dflt x : ScoredCand) (t : List ScoredCand) :
    utf8Tiebreak dflt (x :: t) = t.foldl tbStep x := rfl

lemma bytesLt_irrefl : ∀ l : List Nat, bytesLt l l = false
  | [] => rfl
  | a :: t => by
      simp only [bytesLt]
      rw [if_neg (lt_irrefl a), if_neg (lt_irrefl a)]
      exact bytesLt_irrefl t

lemma bytesLt_trans : ∀ (a b c : List Nat),
    bytesLt a b = true → bytesLt b c = true → bytesLt a c = true
  | [], b, [], _, hbc => by
      cases b with
      | nil => exact hbc
      | cons b1 bs => simp [bytesLt] at hbc
  | [], _, _ :: _, _, _ => rfl
  | _ :: _, [], _, hab, _ => by simp [bytesLt] at hab
  | _ :: _, _ :: _, [], _, hbc => by simp [bytesLt] at hbc
  | a1 :: as, b1 :: bs, c1 :: cs, hab, hbc => by
      simp only [bytesLt] at hab hbc ⊢
      by_cases h1 : a1 < b1
      · by_cases h3 : b1 < c1
        · rw [if_pos (lt_trans h1 h3)]
        · rw [if_neg h3] at hbc
          by_cases h4 : c1 < b1
          · rw [if_pos h4] at hbc; exact absurd hbc (by decide)
          · have hbe : b1 = c1 := by omega
            rw [if_pos (hbe ▸ h1)]
      · rw [if_neg h1] at hab
        by_cases h2 : b1 < a1
        · rw [if_pos h2] at hab; exact absurd hab (by decide)
        · rw [if_neg h2] at hab
          have hae : a1 = b1 := by omega
          by_cases h3 : b1 < c1
          · rw [if_pos (hae ▸ h3)]
          · rw [if_neg h3] at hbc
            by_cases h4 : c1 < b1
            · rw [if_pos h4] at hbc; exact absurd hbc (by decide)
            · rw [if_neg h4] at hbc
              have hbe : b1 = c1 := by omega
              rw [if_neg (show ¬ a1 < c1 by omega), if_neg (show ¬ c1 < a1 by omega)]
              exact bytesLt_trans as bs cs hab hbc

lemma bytesLt_conn : ∀ (a b : List Nat),
    bytesLt a b = false → bytesLt b a = true ∨ a = b
  | [], [], _ => Or.inr rfl
  | [], _ :: _, h => by simp [bytesLt] at h
  | _ :: _, [], _ => Or.inl rfl
  | a1 :: as, b1 :: bs, h => by
      simp only [bytesLt] at h ⊢
      by_cases h1 : a1 < b1
      · rw [if_pos h1] at h; exact absurd h (by decide)
      · rw [if_neg h1] at h
        by_cases h2 : b1 < a1
        · left; rw [if_pos h2]
        · rw [if_neg h2] at h
          have hab : a1 = b1 := by omega
          rcases bytesLt_conn as bs h with h3 | h3
          · left
            rw [if_neg (show ¬ b1 < a1 from h2), if_neg (show ¬ a1 < b1 from h1)]
            exact h3
          · right; rw [hab, h3]

lemma tb_foldl_mem : ∀ (t : List ScoredCand) (m : ScoredCand),
    t.foldl tbStep m = m ∨ t.foldl tbStep m ∈ t
  | [], _ => Or.inl rfl
  | c :: t, m => by
      rw [List.foldl_cons]
      rcases tb_foldl_mem t (tbStep m c) with h | h
      · rw [h]
        unfold tbStep
        by_cases hb : bytesLt (tbKey c) (tbKey m) = true
        · rw [if_pos hb]; exact Or.inr (List.mem_cons_self c t)
        · rw [if_neg hb]; exact Or.inl rfl
      · exact Or.inr (List.mem_cons_of_mem c h)

lemma tb_foldl_start : ∀ (t : List ScoredCand) (m : ScoredCand),
    bytesLt (tbKey m) (tbKey (t.foldl tbStep m)) = false
  | [], m => bytesLt_irrefl (tbKey m)
  | c :: t, m => by
      rw [List.foldl_cons]
      by_cases hb : bytesLt (tbKey c) (tbKey m) = true
      · have hs : tbStep m c = c := if_pos hb
        rw [hs]
        have ih := tb_foldl_start t c
        cases hg : bytesLt (tbKey m) (tbKey (t.foldl tbStep c)) with
        | false => rfl
        | true =>
            have htr := bytesLt_trans (tbKey c) (tbKey m) (tbKey (t.foldl tbStep c)) hb hg
            rw [ih] at htr
            exact htr.symm
      · have hs : tbStep m c = m := if_neg hb
        rw [hs]
        exact tb_foldl_start t m

lemma tb_foldl_min : ∀ (t : List ScoredCand) (m e : ScoredCand),
    e = m ∨ e ∈ t →
    bytesLt (tbKey e) (tbKey (t.foldl tbStep m)) = false
  | [], m, e, he => by
      rcases he with he | he
      · rw [he]; exact bytesLt_irrefl (tbKey m)
      · cases he
  | c :: t, m, e, he => by
      rw [List.foldl_cons]
      by_cases hb : bytesLt (tbKey c) (tbKey m) = true
      · have hs : tbStep m c = c := if_pos hb
        rw [hs]
        rcases he with he | he
        · rw [he]
          have hstart := tb_foldl_start t c
          cases hg : bytesLt (tbKey m) (tbKey (t.foldl tbStep c)) with
          | false => rfl
          | true =>
              have htr := bytesLt_trans (tbKey c) (tbKey m) (tbKey (t.foldl tbStep c)) hb hg
              rw [hstart] at htr
              exact htr.symm
        · rcases List.mem_cons.mp he with he | he
          · rw [he]; exact tb_foldl_min t c c (Or.inl rfl)
          · exact tb_foldl_min t c e (Or.inr he)
      · have hs : tbStep m c = m := if_neg hb
        rw [hs]
        rcases he with he | he
        · exact tb_foldl_min t m e (Or.inl he)
        · rcases List.mem_cons.mp he with he | he
          · rw [he]
            have hb2 : bytesLt (tbKey c) (tbKey m) = false := by simpa using hb
            have hstart := tb_foldl_start t m
            rcases bytesLt_conn (tbKey c) (tbKey m) hb2 with hlt | heq
            · cases hg : bytesLt (tbKey c) (tbKey (t.foldl tbStep m)) with
              | false => rfl
              | true =>
                  have htr := bytesLt_trans (tbKey m) (tbKey c) (tbKey (t.foldl tbStep m)) hlt hg
                  rw [hstart] at htr
                  exact htr.symm
            · rw [show tbKey c = tbKey m from heq]
              exact hstart
          · exact tb_foldl_min t m e (Or.inr he)

lemma utf8Tiebreak_mem (dflt x : ScoredCand) (t : List ScoredCand) :
    utf8Tiebreak dflt (x :: t) ∈ x :: t := by
  rw [utf8Tiebreak_foldl]
  rcases tb_foldl_mem t x with h | h
  · rw [h]; exact List.mem_cons_self x t
  · exact List.mem_cons_of_mem x h

lemma utf8Tiebreak_min (dflt x : ScoredCand) (t : List ScoredCand) (e : ScoredCand)
    (he : e ∈ x :: t) :
    bytesLt (tbKey e) (tbKey (utf8Tiebreak dflt (x :: t))) = false := by
  rw [utf8Tiebreak_foldl]
  rcases List.mem_cons.mp he with h | h
  · exact tb_foldl_min t x e (Or.inl h)
  · exact tb_foldl_min t x e (Or.inr h)

lemma narrowedOf_length_le (tied : List ScoredCand) :
    (narrowedOf tied).length ≤ tied.length := by
  simp only [narrowedOf]
  split
  · exact List.length_filter_le _ _
  · exact le_refl _

/-- C6: whenever more than one candidate survives the stage-3 risk
narrowing of the tied-on-top set, the router applies the UTF-8 tiebreak:
tie_break_applied is true, decision_stability is
"tie_break_lexical_order", the response's skill_ref is taken from the
tiebreak winner, and the winner is a member of the narrowed set whose
skill_id's UTF-8 byte sequence is minimal (no member's bytes are
strictly below it). -/
theorem C6_tiebreak_utf8_order (top : ScoredCand) (rest : List ScoredCand)
    (trace : List TraceEvent) (narrowed : List ScoredCand) (w : ScoredCand)
    (hn : narrowedOf (tiedOn (fun c => c.combined) top.combined (top :: rest)) = narrowed)
    (hw : utf8Tiebreak top narrowed = w)
    (h : narrowed.length > 1) :
    respTieBreak (stage3Run (top :: rest) trace) = true ∧
    respStability (stage3Run (top :: rest) trace) = "tie_break_lexical_order" ∧
    respSkillRef (stage3Run (top :: rest) trace) = pyOr w.cand.skill_ref w.cand.skill_id ∧
    w ∈ narrowed ∧
    ∀ e ∈ narrowed, bytesLt (utf8Bytes (e.cand.skill_id.getD ""))
      (utf8Bytes (w.cand.skill_id.getD "")) = false := by
  have htle := narrowedOf_length_le (tiedOn (fun c => c.combined) top.combined (top :: rest))
  rw [hn] at htle
  have hgate1 : (tiedOn (fun c => c.combined) top.combined (top :: rest)).length > 1 :=
    lt_of_lt_of_le h htle
  refine ⟨?_, ?_, ?_, ?_, ?_⟩
  · simp only [stage3Run]
    rw [hn, hw, if_pos hgate1, if_pos h]
    rfl
  · simp only [stage3Run]
    rw [hn, hw, if_pos hgate1, if_pos h]
    rfl
  · simp only [stage3Run]
    rw [hn, hw, if_pos hgate1, if_pos h]
    rfl
  · cases narrowed with
    | nil => simp at h
    | cons x t =>
        rw [← hw]
        exact utf8Tiebreak_mem top x t
  · intro e he
    cases narrowed with
    | nil => cases he
    | cons x t =>
        rw [← hw]
        exact utf8Tiebreak_min top x t e he

/-- Two candidates tied on the combined score at equal (LOW) risk, the
second with the byte-smaller skill_id. -/
def scXC6 : ScoredCand :=
  { cand := { skill_id := some "b.skill", name := some "N", description := none,
              activation_keywords := [], risk_level := some "LOW",
              safety_clearance := none, skill_ref := none },
    bm25 := 2, sem := 0, combined := 4/15 }

def scYC6 : ScoredCand :=
  { scXC6 with cand := { scXC6.cand with skill_id := some "a.skill" } }

theorem C6_tiebreak_utf8_order_witness :
    narrowedOf (tiedOn (fun c => c.combined) scXC6.combined [scXC6, scYC6]) = [scXC6, scYC6] ∧
    utf8Tiebreak scXC6 [scXC6, scYC6] = scYC6 ∧
    ([scXC6, scYC6] : List ScoredCand).length > 1 ∧
    (respTieBreak (stage3Run [scXC6, scYC6] []) = true ∧
     respStability (stage3Run [scXC6, scYC6] []) = "tie_break_lexical_order" ∧
     respSkillRef (stage3Run [scXC6, scYC6] []) = pyOr scYC6.cand.skill_ref scYC6.cand.skill_id ∧
     scYC6 ∈ [scXC6, scYC6] ∧
     ∀ e ∈ [scXC6, scYC6], bytesLt (utf8Bytes (e.cand.skill_id.getD ""))
       (utf8Bytes (scYC6.cand.skill_id.getD "")) = false) :=
  ⟨by decide, by decide, by decide,
   C6_tiebreak_utf8_order scXC6 [scYC6] [] [scXC6, scYC6] scYC6
     (by decide) (by decide) (by decide)⟩

/-! ### C1: routing determinism across repeated calls -/

set_option maxRecDepth 10000

/-- C1 counterexample: two consecutive route calls with the same
inputs (Stage 2 disabled via skip_semantic) return different responses:
the first call populates the decision cache, so the second returns the
cached decision with trace_events replaced by the single CACHE_HIT
event, not the first call's trace. -/
theorem C1_route_determinism_counterexample :
    reqC5.skip_semantic = true ∧
    (route benignParamsC5 0 (route benignParamsC5 0 initRouterState reqC5).2 reqC5).1 ≠
      (route benignParamsC5 0 initRouterState reqC5).1 ∧
    respTrace (route benignParamsC5 0 (route benignParamsC5 0 initRouterState reqC5).2 reqC5).1 =
      [⟨"CACHE_HIT", StageV.n 0, []⟩] := by
  refine ⟨rfl, ?_, ?_⟩ <;> with_unfolding_all decide

/-- C1 (amended): a repeat call whose (query, candidate pool) is already
cached returns the cached decision byte-identically except for
trace_events, which become the single CACHE_HIT event; the cache key is
the md5 of the query and the candidate skill ids, so the decision
payload itself is reproduced exactly. -/
theorem C1_route_cached_repeat (p : RouterParams) (lat : ℚ) (st : RouterState)
    (req : RouteRequest) (resp : RouteResponse)
    (h1 : ¬ pyStrip (truncQuery req.query) = "")
    (h2 : hasOverride (truncQuery req.query) = false)
    (h3 : req.candidate_skills ≠ [])
    (h4 : (checkSafety
        { sqlMatch := p.sqlMatch, cmdMatch := p.cmdMatch,
          classify := p.classify, logQ := p.logQ }
        (truncQuery req.query) st.safety).1 = none)
    (h5 : odGet st.cache
        (makeCacheKey p.md5Hex (truncQuery req.query) req.candidate_skills) = some resp) :
    (route p lat st req).1 = setTrace resp [⟨"CACHE_HIT", StageV.n 0, []⟩] := by
  rcases hc : req.candidate_skills with _ | ⟨c, cs⟩
  · exact absurd hc h3
  · rw [hc] at h5
    simp only [route, hc, h2, if_neg h1, h4, h5, List.isEmpty_cons]
    rw [if_neg (show ¬ false = true by decide)]

theorem C1_route_cached_repeat_witness :
    (¬ pyStrip (truncQuery reqC5.query) = "" ∧
     hasOverride (truncQuery reqC5.query) = false ∧
     reqC5.candidate_skills ≠ [] ∧
     (checkSafety
        { sqlMatch := benignParamsC5.sqlMatch, cmdMatch := benignParamsC5.cmdMatch,
          classify := benignParamsC5.classify, logQ := benignParamsC5.logQ }
        (truncQuery reqC5.query)
        (route benignParamsC5 0 initRouterState reqC5).2.safety).1 = none ∧
     odGet (route benignParamsC5 0 initRouterState reqC5).2.cache
        (makeCacheKey benignParamsC5.md5Hex (truncQuery reqC5.query) reqC5.candidate_skills) =
       some (route benignParamsC5 0 initRouterState reqC5).1) ∧
    (route benignParamsC5 0 (route benignParamsC5 0 initRouterState reqC5).2 reqC5).1 =
      setTrace (route benignParamsC5 0 initRouterState reqC5).1
        [⟨"CACHE_HIT", StageV.n 0, []⟩] :=
  ⟨⟨by decide, by decide, by decide, by with_unfolding_all decide,
      by with_unfolding_all decide⟩,
   C1_route_cached_repeat benignParamsC5 0 (route benignParamsC5 0 initRouterState reqC5).2
     reqC5 (route benignParamsC5 0 initRouterState reqC5).1
     (by decide) (by decide) (by decide) (by with_unfolding_all decide)
     (by with_unfolding_all decide)⟩

/-! ### C10: route does not mutate its input candidates

Python dicts are mutable heap objects, so the frame property of
routing.py is stated over an explicit store: cells are addressed by
list index, the input candidates occupy addresses 0..n-1, and the
embedded pipeline performs exactly the source's allocations and
writes.  Lines 264-268 allocate the per-candidate copy
(a new dict carrying the candidate plus _bm25_score and
_semantic_score) at a fresh address; lines 317-323 and 352-357 assign
_semantic_score and _combined_score on those copies in place.  The
numeric score values are irrelevant to the frame property and are
taken as parameters. -/

/-- A Python candidate dict as a heap cell: the candidate fields plus
the three optional scoring keys. -/
structure CandCell where
  cand : Candidate
  bm25f : Option ℚ
  semf : Option ℚ
  combf : Option ℚ
  deriving DecidableEq

/-- Lines 264-268: for each input address, read the cell and append the
scored copy at a fresh address, collecting the copies' addresses. -/
def scoreLoop (score : Candidate → ℚ) :
    List Nat → List CandCell × List Nat → List CandCell × List Nat
  | [], acc => acc
  | a :: rest, (h, outs) =>
      match h[a]? with
      | none => scoreLoop score rest (h, outs)
      | some cell =>
          scoreLoop score rest
            (h ++ [{ cell with bm25f := some (score cell.cand), semf := some 0 }],
             outs ++ [h.length])

/-- Lines 317-323 / 352-357: an in-place field update at each listed
address. -/
def writeLoop (upd : CandCell → CandCell) : List Nat → List CandCell → List CandCell
  | [], h => h
  | a :: rest, h =>
      match h[a]? with
      | none => writeLoop upd rest h
      | some cell => writeLoop upd rest (h.set a (upd cell))

/-- The candidate-handling fragment of route over the store: the copy
loop, then the semantic-score writes, then the combined-score
writes, returning the final store and the copies' addresses. -/
def routeHeap (score : Candidate → ℚ) (semS combS : CandCell → ℚ)
    (h0 : List CandCell) (inAddrs : List Nat) : List CandCell × List Nat :=
  let s1 := scoreLoop score inAddrs (h0, [])
  let h2 := writeLoop (fun c => { c with semf := some (semS c) }) s1.2 s1.1
  let h3 := writeLoop (fun c => { c with combf := some (combS c) }) s1.2 h2
  (h3, s1.2)

lemma scoreLoop_spec (score : Candidate → ℚ) (addrs : List Nat) :
    ∀ (h : List CandCell) (outs : List Nat),
    ∃ ext na, scoreLoop score addrs (h, outs) = (h ++ ext, outs ++ na) ∧
      ∀ a ∈ na, h.length ≤ a := by
  induction addrs with
  | nil =>
      intro h outs
      exact ⟨[], [], by simp [scoreLoop], by simp⟩
  | cons a rest ih =>
      intro h outs
      cases hga : h[a]? with
      | none =>
          obtain ⟨ext, na, heq, hna⟩ := ih h outs
          refine ⟨ext, na, ?_, hna⟩
          simp only [scoreLoop, hga]
          exact heq
      | some cell =>
          obtain ⟨ext, na, heq, hna⟩ :=
            ih (h ++ [{ cell with bm25f := some (score cell.cand), semf := some 0 }])
              (outs ++ [h.length])
          refine ⟨{ cell with bm25f := some (score cell.cand), semf := some 0 } :: ext,
                  h.length :: na, ?_, ?_⟩
          · simp only [scoreLoop, hga]
            rw [heq]
            simp
          · intro b hb
            rcases List.mem_cons.mp hb with hb | hb
            · subst hb; exact le_refl _
            · have h2 := hna b hb
              simp only [List.length_append, List.length_cons, List.length_nil] at h2
              omega

lemma writeLoop_frame (upd : CandCell → CandCell) (addrs : List Nat) :
    ∀ (h : List CandCell) (n : Nat), (∀ a ∈ addrs, n ≤ a) → ∀ b, b < n →
      (writeLoop upd addrs h)[b]? = h[b]? := by
  induction addrs with
  | nil =>
      intro h n _ b _
      simp [writeLoop]
  | cons a rest ih =>
      intro h n hall b hb
      have hrest : ∀ x ∈ rest, n ≤ x := fun x hx => hall x (List.mem_cons_of_mem a hx)
      have hna : n ≤ a := hall a (List.mem_cons_self a rest)
      cases hga : h[a]? with
      | none =>
          simp only [writeLoop, hga]
          exact ih h n hrest b hb
      | some cell =>
          simp only [writeLoop, hga]
          rw [ih (h.set a (upd cell)) n hrest b hb,
              List.getElem?_set_ne (by omega)]

/-- C10: route never mutates its input.  Over the store model of the
candidate handling, every address below the input heap's length (in
particular every input candidate dict) holds the same cell after the
pipeline as before, and every address the pipeline writes to (the
scored copies) is a fresh address at or beyond the input heap's
length. -/
theorem C10_route_frame (score : Candidate → ℚ) (semS combS : CandCell → ℚ)
    (h0 : List CandCell) (inAddrs : List Nat) (b : Nat) (hb : b < h0.length) :
    (routeHeap score semS combS h0 inAddrs).1[b]? = h0[b]? ∧
    ∀ a ∈ (routeHeap score semS combS h0 inAddrs).2, h0.length ≤ a := by
  obtain ⟨ext, na, heq, hna⟩ := scoreLoop_spec score inAddrs h0 []
  simp only [List.nil_append] at heq
  constructor
  · simp only [routeHeap, heq]
    rw [writeLoop_frame _ na _ h0.length hna b hb,
        writeLoop_frame _ na _ h0.length hna b hb,
        List.getElem?_append_left hb]
  · intro x hx
    simp only [routeHeap, heq] at hx
    exact hna x hx

def candC10 : Candidate :=
  { skill_id := some "x", name := some "X", description := none,
    activation_keywords := [], risk_level := none, safety_clearance := none,
    skill_ref := none }

def heapC10 : List CandCell :=
  [{ cand := candC10, bm25f := none, semf := none, combf := none },
   { cand := { candC10 with skill_id := some "y" }, bm25f := none, semf := none,
     combf := none }]

theorem C10_route_frame_witness :
    (0 < heapC10.length) ∧
    ((routeHeap (fun _ => 1) (fun _ => 0) (fun _ => 0) heapC10 [0, 1]).1[0]? = heapC10[0]? ∧
     ∀ a ∈ (routeHeap (fun _ => 1) (fun _ => 0) (fun _ => 0) heapC10 [0, 1]).2,
       heapC10.length ≤ a) :=
  ⟨by decide,
   C10_route_frame (fun _ => 1) (fun _ => 0) (fun _ => 0) heapC10 [0, 1] 0 (by decide)⟩
